import Mathlib

/-!
Shallow embedding of the Superelliptify core geometry library
(`SuperelliptifyCore.py`) over the real numbers, together with theorems
settling the specification claims about it.  Python floats are modelled as
real numbers; `math.atan2 y x` is modelled as `Complex.arg ⟨x, y⟩`, whose
value agrees with the real-arithmetic atan2 on all inputs (range `(-π, π]`,
`atan2 0 0 = 0`).  Fallible functions (Python `None` results) are modelled
with `Option`.
-/

namespace Superelliptify

noncomputable section

/-- Bézier circle approximation kappa for a 90° arc: `4/3 * (sqrt 2 - 1)`. -/
def IOTA : ℝ := 4 / 3 * (Real.sqrt 2 - 1)

/-- Guard against degenerate zero-length handles. -/
def EPSILON : ℝ := 1e-6

/-- Euclidean distance between two points (`get_distance`). -/
def get_distance (ax ay bx by2 : ℝ) : ℝ :=
  Real.sqrt ((ax - bx) ^ 2 + (ay - by2) ^ 2)

/-- Real-arithmetic `math.atan2 y x`, modelled as the argument of the complex
number `x + y*i`; its value lies in `(-π, π]` and `atan2 0 0 = 0`. -/
def atan2 (y x : ℝ) : ℝ := Complex.arg ⟨x, y⟩

/-- Normalize an angle to the `[-π, π]` range (`_map_angle`). -/
def map_angle (angle : ℝ) : ℝ :=
  if angle > Real.pi then angle - 2 * Real.pi
  else if angle < -Real.pi then angle + 2 * Real.pi
  else angle

/-- Angle from point A to point B (`get_angle`). -/
def get_angle (ax ay bx by2 : ℝ) : ℝ :=
  map_angle (atan2 (by2 - ay) (bx - ax))

/-- Tangent departure angles of a cubic Bézier segment
(`get_tangent_angles`).  The Python function wraps the computation in
`try/except` and returns `None` on an arithmetic exception; real-arithmetic
`atan2` is total, so the embedded function always returns `some`. -/
def get_tangent_angles (p0x p0y p1x p1y p2x p2y p3x p3y : ℝ) :
    Option (ℝ × ℝ) :=
  let angle_AD := get_angle p0x p0y p3x p3y
  let angle_AB := get_angle p0x p0y p1x p1y
  let angle_DC := get_angle p3x p3y p2x p2y
  some (map_angle (angle_AB - angle_AD),
        map_angle (Real.pi - angle_DC + angle_AD))

/-- Convert user-facing tension value (0–100) to internal value
(`display_to_internal`): quadratic mapping `(display / 100)²`. -/
def display_to_internal (display_value : ℝ) : ℝ :=
  (display_value / 100) * (display_value / 100)

/-- Convert internal tension value back to user-facing value
(`internal_to_display`): `100 * sqrt internal`, clamped to 0 for negative
input. -/
def internal_to_display (internal_value : ℝ) : ℝ :=
  if internal_value < 0 then 0 else Real.sqrt internal_value * 100

/-- Total turning angle `alpha = |θ0| + |θ1|` of `compute_handles`. -/
def alpha_of (theta0 theta1 : ℝ) : ℝ := |theta0| + |theta1|

/-- Half-angle `beta = alpha / 2` of `compute_handles`. -/
def beta_of (theta0 theta1 : ℝ) : ℝ := alpha_of theta0 theta1 / 2

/-- Normalized circle-approximation radius for the first handle
(`radius0` in `compute_handles`). -/
def radius0_of (theta0 theta1 : ℝ) : ℝ :=
  if Real.sin (beta_of theta0 theta1) ≠ 0 then
    1 / (2 * Real.sin (beta_of theta0 theta1)) * |Real.sin theta1| /
      |Real.sin (beta_of theta0 theta1)|
  else 0.5

/-- Normalized circle-approximation radius for the second handle
(`radius1` in `compute_handles`). -/
def radius1_of (theta0 theta1 : ℝ) : ℝ :=
  if Real.sin (beta_of theta0 theta1) ≠ 0 then
    1 / (2 * Real.sin (beta_of theta0 theta1)) * |Real.sin theta0| /
      |Real.sin (beta_of theta0 theta1)|
  else 0.5

/-- Generalized Bézier circle kappa for a given half-angle
(`kappa` before the superellipticity modifier in `compute_handles`). -/
def kappa_base_of (theta0 theta1 : ℝ) : ℝ :=
  if Real.sin (beta_of theta0 theta1) ≠ 0 then
    4 / 3 * ((1 - Real.cos (beta_of theta0 theta1)) /
      Real.sin (beta_of theta0 theta1))
  else 2 / 3

/-- The superellipticity modifier `s` of `compute_handles`, after the
eccentricity-compensation and angle-damping steps. -/
def s_modifier (theta0 theta1 tension adjustment : ℝ) : ℝ :=
  let s0 := tension * (1 / IOTA - 1)
  let eccentricity :=
    |Real.sin theta0 * Real.cos theta1 - Real.cos theta0 * Real.sin theta1|
  let maximum := 1 / IOTA - 1
  let s1 := s0 + (maximum - s0) * eccentricity * adjustment
  let angle_factor0 := (1 - Real.cos (alpha_of theta0 theta1)) ^ 2
  let angle_factor := if angle_factor0 > 1 then 1 else angle_factor0
  s1 * angle_factor

/-- Compute new off-curve handle positions for a cubic Bézier segment
(`compute_handles`). -/
def compute_handles (p0x p0y p1x p1y p2x p2y p3x p3y
    tension_display adjustment_display : ℝ) : Option (ℝ × ℝ × ℝ × ℝ) :=
  let tension := display_to_internal tension_display
  let adjustment := adjustment_display / 100
  match get_tangent_angles p0x p0y p1x p1y p2x p2y p3x p3y with
  | none => none
  | some (theta0, theta1) =>
    let kappa := (1 + s_modifier theta0 theta1 tension adjustment) *
      kappa_base_of theta0 theta1
    let h1 := radius0_of theta0 theta1 * kappa
    let h2 := radius1_of theta0 theta1 * kappa
    let distance_AD := get_distance p0x p0y p3x p3y
    let angle_AD := get_angle p0x p0y p3x p3y
    let h1_angle := angle_AD + theta0
    let h2_angle := angle_AD - theta1
    some (p0x + Real.cos h1_angle * h1 * distance_AD,
          p0y + Real.sin h1_angle * h1 * distance_AD,
          p3x - Real.cos h2_angle * h2 * distance_AD,
          p3y - Real.sin h2_angle * h2 * distance_AD)

/-- Coefficients of the bilinear area form (`_area_coefficients`):
`A(h1, h2) = c0 + c1*h1 + c2*h2 + c12*h1*h2`. -/
def area_coefficients (x0 y0 x3 y3 ux1 uy1 ux2 uy2 : ℝ) : ℝ × ℝ × ℝ × ℝ :=
  ((x0 * y3 - x3 * y0) / 2,
   6 * (ux1 * (y3 - y0) - uy1 * (x3 - x0)) / 20,
   6 * (ux2 * (y3 - y0) - uy2 * (x3 - x0)) / 20,
   3 * (ux1 * uy2 - ux2 * uy1) / 20)

/-- Solve the area constraint `A(r*h2, h2) = A_target` for `h2`
(`_solve_h2_for_ratio`): a quadratic in `h2`, with a linear fallback when
the leading coefficient is below `1e-12` in magnitude; returns the root
`> EPSILON` closest to `h2_bal`, `none` if no such root. -/
def solve_h2_for_r (c0 c1 c2 c12 A_target r h2_bal : ℝ) : Option ℝ :=
  let a := c12 * r
  let b := c1 * r + c2
  let c := c0 - A_target
  if |a| < 1e-12 then
    if |b| < 1e-12 then none
    else if -c / b > EPSILON then some (-c / b) else none
  else
    let disc := b * b - 4 * a * c
    if disc < 0 then none
    else
      let sqrt_disc := Real.sqrt disc
      let h2_a := (-b + sqrt_disc) / (2 * a)
      let h2_b := (-b - sqrt_disc) / (2 * a)
      if h2_a > EPSILON then
        if h2_b > EPSILON then
          some (if |h2_a - h2_bal| ≤ |h2_b - h2_bal| then h2_a else h2_b)
        else some h2_a
      else if h2_b > EPSILON then some h2_b
      else none

/-- Redistribute balanced handles to restore the original handle-length
ratio while preserving the bilinear-form signed area
(`redistribute_handles`). -/
def redistribute_handles (p0x p0y p1_orig_x p1_orig_y p2_orig_x p2_orig_y
    p1_bal_x p1_bal_y p2_bal_x p2_bal_y p3x p3y : ℝ) : ℝ × ℝ × ℝ × ℝ :=
  let dx1 := p1_bal_x - p0x
  let dy1 := p1_bal_y - p0y
  let h1_bal := Real.sqrt (dx1 * dx1 + dy1 * dy1)
  let dx2 := p2_bal_x - p3x
  let dy2 := p2_bal_y - p3y
  let h2_bal := Real.sqrt (dx2 * dx2 + dy2 * dy2)
  if h1_bal < EPSILON ∨ h2_bal < EPSILON then
    (p1_bal_x, p1_bal_y, p2_bal_x, p2_bal_y)
  else
    let ux1 := dx1 / h1_bal
    let uy1 := dy1 / h1_bal
    let ux2 := dx2 / h2_bal
    let uy2 := dy2 / h2_bal
    let ox1 := p1_orig_x - p0x
    let oy1 := p1_orig_y - p0y
    let h1_orig := Real.sqrt (ox1 * ox1 + oy1 * oy1)
    let ox2 := p2_orig_x - p3x
    let oy2 := p2_orig_y - p3y
    let h2_orig := Real.sqrt (ox2 * ox2 + oy2 * oy2)
    if h1_orig < EPSILON ∨ h2_orig < EPSILON then
      (p1_bal_x, p1_bal_y, p2_bal_x, p2_bal_y)
    else
      let r_bal := h1_bal / h2_bal
      let r_orig := h1_orig / h2_orig
      let pct_orig := r_orig / r_bal
      if |pct_orig - 1| < EPSILON then
        (p1_bal_x, p1_bal_y, p2_bal_x, p2_bal_y)
      else
        let r_target := pct_orig * r_bal
        let cs := area_coefficients p0x p0y p3x p3y ux1 uy1 ux2 uy2
        let c0 := cs.1
        let c1 := cs.2.1
        let c2 := cs.2.2.1
        let c12 := cs.2.2.2
        let A_bal := c0 + c1 * h1_bal + c2 * h2_bal + c12 * h1_bal * h2_bal
        match solve_h2_for_r c0 c1 c2 c12 A_bal r_target h2_bal with
        | none => (p1_bal_x, p1_bal_y, p2_bal_x, p2_bal_y)
        | some h2_new =>
          let h1_new := r_target * h2_new
          (p0x + ux1 * h1_new, p0y + uy1 * h1_new,
           p3x + ux2 * h2_new, p3y + uy2 * h2_new)

/-- Leading coefficient `a = c12 * r_target` of the area-constraint
quadratic solved by `redistribute_handles` (assembled from the same
intermediate quantities as the source). -/
def redistribute_quad_a (p0x p0y p1_orig_x p1_orig_y p2_orig_x p2_orig_y
    p1_bal_x p1_bal_y p2_bal_x p2_bal_y p3x p3y : ℝ) : ℝ :=
  let dx1 := p1_bal_x - p0x
  let dy1 := p1_bal_y - p0y
  let h1_bal := Real.sqrt (dx1 * dx1 + dy1 * dy1)
  let dx2 := p2_bal_x - p3x
  let dy2 := p2_bal_y - p3y
  let h2_bal := Real.sqrt (dx2 * dx2 + dy2 * dy2)
  let ux1 := dx1 / h1_bal
  let uy1 := dy1 / h1_bal
  let ux2 := dx2 / h2_bal
  let uy2 := dy2 / h2_bal
  let h1_orig := Real.sqrt ((p1_orig_x - p0x) * (p1_orig_x - p0x) +
    (p1_orig_y - p0y) * (p1_orig_y - p0y))
  let h2_orig := Real.sqrt ((p2_orig_x - p3x) * (p2_orig_x - p3x) +
    (p2_orig_y - p3y) * (p2_orig_y - p3y))
  let r_bal := h1_bal / h2_bal
  let r_orig := h1_orig / h2_orig
  let r_target := r_orig / r_bal * r_bal
  (area_coefficients p0x p0y p3x p3y ux1 uy1 ux2 uy2).2.2.2 * r_target

/-- Middle coefficient `b = c1 * r_target + c2` of the area-constraint
quadratic solved by `redistribute_handles`. -/
def redistribute_quad_b (p0x p0y p1_orig_x p1_orig_y p2_orig_x p2_orig_y
    p1_bal_x p1_bal_y p2_bal_x p2_bal_y p3x p3y : ℝ) : ℝ :=
  let dx1 := p1_bal_x - p0x
  let dy1 := p1_bal_y - p0y
  let h1_bal := Real.sqrt (dx1 * dx1 + dy1 * dy1)
  let dx2 := p2_bal_x - p3x
  let dy2 := p2_bal_y - p3y
  let h2_bal := Real.sqrt (dx2 * dx2 + dy2 * dy2)
  let ux1 := dx1 / h1_bal
  let uy1 := dy1 / h1_bal
  let ux2 := dx2 / h2_bal
  let uy2 := dy2 / h2_bal
  let h1_orig := Real.sqrt ((p1_orig_x - p0x) * (p1_orig_x - p0x) +
    (p1_orig_y - p0y) * (p1_orig_y - p0y))
  let h2_orig := Real.sqrt ((p2_orig_x - p3x) * (p2_orig_x - p3x) +
    (p2_orig_y - p3y) * (p2_orig_y - p3y))
  let r_bal := h1_bal / h2_bal
  let r_orig := h1_orig / h2_orig
  let r_target := r_orig / r_bal * r_bal
  let cs := area_coefficients p0x p0y p3x p3y ux1 uy1 ux2 uy2
  cs.2.1 * r_target + cs.2.2.1

/-- Constant coefficient `c = c0 - A_bal` of the area-constraint quadratic
solved by `redistribute_handles`. -/
def redistribute_quad_c (p0x p0y p1_orig_x p1_orig_y p2_orig_x p2_orig_y
    p1_bal_x p1_bal_y p2_bal_x p2_bal_y p3x p3y : ℝ) : ℝ :=
  let dx1 := p1_bal_x - p0x
  let dy1 := p1_bal_y - p0y
  let h1_bal := Real.sqrt (dx1 * dx1 + dy1 * dy1)
  let dx2 := p2_bal_x - p3x
  let dy2 := p2_bal_y - p3y
  let h2_bal := Real.sqrt (dx2 * dx2 + dy2 * dy2)
  let ux1 := dx1 / h1_bal
  let uy1 := dy1 / h1_bal
  let ux2 := dx2 / h2_bal
  let uy2 := dy2 / h2_bal
  let cs := area_coefficients p0x p0y p3x p3y ux1 uy1 ux2 uy2
  cs.1 - (cs.1 + cs.2.1 * h1_bal + cs.2.2.1 * h2_bal +
    cs.2.2.2 * h1_bal * h2_bal)

/-- The triangle-percentage ratio `pct = r_orig / r_bal` computed by
`redistribute_handles`. -/
def redistribute_pct (p0x p0y p1_orig_x p1_orig_y p2_orig_x p2_orig_y
    p1_bal_x p1_bal_y p2_bal_x p2_bal_y p3x p3y : ℝ) : ℝ :=
  let h1_bal := Real.sqrt ((p1_bal_x - p0x) * (p1_bal_x - p0x) +
    (p1_bal_y - p0y) * (p1_bal_y - p0y))
  let h2_bal := Real.sqrt ((p2_bal_x - p3x) * (p2_bal_x - p3x) +
    (p2_bal_y - p3y) * (p2_bal_y - p3y))
  let h1_orig := Real.sqrt ((p1_orig_x - p0x) * (p1_orig_x - p0x) +
    (p1_orig_y - p0y) * (p1_orig_y - p0y))
  let h2_orig := Real.sqrt ((p2_orig_x - p3x) * (p2_orig_x - p3x) +
    (p2_orig_y - p3y) * (p2_orig_y - p3y))
  (h1_orig / h2_orig) / (h1_bal / h2_bal)

/-- Exact signed area functional of a cubic Bézier segment (the Green's
theorem integral `(1/2)∮(x dy - y dx)` over the curve, in closed form).
`_area_coefficients` is the specialization of this functional to handles
along fixed unit directions. -/
def bezier_area (x0 y0 x1 y1 x2 y2 x3 y3 : ℝ) : ℝ :=
  (6 * (x0 * y1 - x1 * y0) + 3 * (x0 * y2 - x2 * y0) + (x0 * y3 - x3 * y0)
    + 3 * (x1 * y2 - x2 * y1) + 3 * (x1 * y3 - x3 * y1)
    + 6 * (x2 * y3 - x3 * y2)) / 20

/-- Signed triangle area test helper (`_tri_area`). -/
def tri_area (ax ay bx by2 cx cy : ℝ) : ℝ :=
  (bx - ax) * (cy - ay) - (cx - ax) * (by2 - ay)

/-- Intersection of two (infinite) lines (`_line_intersection`); `none`
when nearly parallel. -/
def line_intersection (x1 y1 x2 y2 x3 y3 x4 y4 : ℝ) : Option (ℝ × ℝ) :=
  let denom := (x1 - x2) * (y3 - y4) - (y1 - y2) * (x3 - x4)
  if |denom| < EPSILON then none
  else
    let cross12 := x1 * y2 - y1 * x2
    let cross34 := x3 * y4 - y3 * x4
    some ((cross12 * (x3 - x4) - (x1 - x2) * cross34) / denom,
          (cross12 * (y3 - y4) - (y1 - y2) * cross34) / denom)

/-- Sidedness filter of `_segment_intersection`: accept the candidate
intersection point only if the three triangle areas share a strict sign. -/
def sided_intersection (p0x p0y p1x p1y p2x p2y p3x p3y x y : ℝ) :
    Option (ℝ × ℝ) :=
  let area_adb := tri_area p0x p0y p2x p2y p1x p1y
  let area_adc := tri_area p0x p0y p2x p2y p3x p3y
  let area_adi := tri_area p0x p0y p2x p2y x y
  if area_adb > 0 ∧ area_adc > 0 ∧ area_adi > 0 then some (x, y)
  else if area_adb < 0 ∧ area_adc < 0 ∧ area_adi < 0 then some (x, y)
  else none

/-- Intersection of the two handle lines of a cubic Bézier segment
(`_segment_intersection`), computed with slopes (vertical lines handled via
the `Option` slope) and filtered by the sidedness test.  The Python source
first compares the two optional slopes with `==` and then, when both are
defined, with an epsilon test; the former is subsumed by the latter except
in the both-`None` case, which is kept explicit here. -/
def segment_intersection (p0x p0y p1x p1y p2x p2y p3x p3y : ℝ) :
    Option (ℝ × ℝ) :=
  let dx_ab := p1x - p0x
  let dx_cd := p2x - p3x
  let slope_ab : Option ℝ :=
    if |dx_ab| > EPSILON then some ((p1y - p0y) / dx_ab) else none
  let slope_cd : Option ℝ :=
    if |dx_cd| > EPSILON then some ((p2y - p3y) / dx_cd) else none
  match slope_ab, slope_cd with
  | none, none => none
  | none, some scd =>
    sided_intersection p0x p0y p1x p1y p2x p2y p3x p3y
      p0x (scd * (p0x - p3x) + p3y)
  | some sab, none =>
    sided_intersection p0x p0y p1x p1y p2x p2y p3x p3y
      p3x (sab * (p3x - p0x) + p0y)
  | some sab, some scd =>
    if |sab - scd| < EPSILON then none
    else
      let x := (sab * p0x - p0y - scd * p3x + p3y) / (sab - scd)
      sided_intersection p0x p0y p1x p1y p2x p2y p3x p3y
        x (sab * (x - p0x) + p0y)

/-- Adjust handles at a smooth node for G2 curvature continuity
(`smooth_handles_at_node`). -/
def smooth_handles_at_node (p0ax p0ay a1x a1y a2x a2y nx ny
    b1x b1y b2x b2y p3bx p3by : ℝ) : ℝ × ℝ × ℝ × ℝ :=
  let da2x := a2x - nx
  let da2y := a2y - ny
  let La_bal := Real.sqrt (da2x * da2x + da2y * da2y)
  let db1x := b1x - nx
  let db1y := b1y - ny
  let Lb_bal := Real.sqrt (db1x * db1x + db1y * db1y)
  if La_bal < EPSILON ∨ Lb_bal < EPSILON then (a2x, a2y, b1x, b1y)
  else
    let ua_x := da2x / La_bal
    let ua_y := da2y / La_bal
    let ub_x := db1x / Lb_bal
    let ub_y := db1y / Lb_bal
    let norm_x := -ub_y
    let norm_y := ub_x
    let d_a_perp := (a1x - nx) * norm_x + (a1y - ny) * norm_y
    let d_b_perp := (b2x - nx) * norm_x + (b2y - ny) * norm_y
    if |d_a_perp| < EPSILON ∨ |d_b_perp| < EPSILON then (a2x, a2y, b1x, b1y)
    else if ¬((0 < d_a_perp) ↔ (0 < d_b_perp)) then (a2x, a2y, b1x, b1y)
    else
      let rho := Real.sqrt (|d_b_perp| / |d_a_perp|)
      let La_max : Option ℝ :=
        (segment_intersection p0ax p0ay a1x a1y a2x a2y nx ny).map
          (fun q => get_distance nx ny q.1 q.2)
      let Lb_max : Option ℝ :=
        (segment_intersection nx ny b1x b1y b2x b2y p3bx p3by).map
          (fun q => get_distance nx ny q.1 q.2)
      let rho2 := rho * rho
      let numer := La_bal * Lb_bal * (Lb_bal + rho * La_bal)
      let denom := Lb_bal * Lb_bal + rho2 * La_bal * La_bal
      if |denom| < EPSILON then (a2x, a2y, b1x, b1y)
      else
        let La_opt := numer / denom
        let La_f1 :=
          match La_max with
          | none => La_opt
          | some m => if La_opt > m then m else La_opt
        let La_final :=
          match Lb_max with
          | none => La_f1
          | some m =>
            if rho > EPSILON ∧ La_f1 > m / rho then m / rho else La_f1
        if La_final < EPSILON then (a2x, a2y, b1x, b1y)
        else
          let Lb_final := rho * La_final
          (nx + ua_x * La_final, ny + ua_y * La_final,
           nx + ub_x * Lb_final, ny + ub_y * Lb_final)

/-- Compute a new on-curve node position for G2 continuity
(`smart_node_position`).  The far on-curve points `p0a`, `p3b` are accepted
but unused, as in the source. -/
def smart_node_position (p0ax p0ay a1x a1y a2x a2y nx ny
    b1x b1y b2x b2y p3bx p3by : ℝ) : ℝ × ℝ :=
  let dist_a2_b1 := get_distance a2x a2y b1x b1y
  if dist_a2_b1 < EPSILON then (nx, ny)
  else
    match line_intersection b1x b1y b2x b2y a2x a2y a1x a1y with
    | none => (nx, ny)
    | some (ix, iy) =>
      let dist_b2_b1 := get_distance b2x b2y b1x b1y
      let dist_b1_I := get_distance b1x b1y ix iy
      let dist_I_a2 := get_distance ix iy a2x a2y
      let dist_a2_a1 := get_distance a2x a2y a1x a1y
      if dist_b1_I < EPSILON ∨ dist_a2_a1 < EPSILON then (nx, ny)
      else
        let r0 := dist_b2_b1 / dist_b1_I
        let r1 := dist_I_a2 / dist_a2_a1
        let rmean := Real.sqrt (r0 * r1)
        let t0 := rmean / (rmean + 1)
        let t := max 0.05 (min 0.95 t0)
        (b1x + t * (a2x - b1x), b1y + t * (a2y - b1y))

/-- Modelled from the spec: `deslant` is imported by `plugin.py` from
`SuperelliptifyCore` but its definition is absent from the provided source;
spec §4.1 defines the shear (deslant) transform as
`(x, y) ↦ (x - y * tan_slant, y)`. -/
def deslant (x y tan_slant : ℝ) : ℝ × ℝ := (x - y * tan_slant, y)

/-- Modelled from the spec: `reslant` is imported by `plugin.py` from
`SuperelliptifyCore` but its definition is absent from the provided source;
spec §4.1 defines the unshear (reslant) transform as
`(x, y) ↦ (x + y * tan_slant, y)`. -/
def reslant (x y tan_slant : ℝ) : ℝ × ℝ := (x + y * tan_slant, y)

/-! ### General helper lemmas -/

lemma sqrt_two_gt_one : 1 < Real.sqrt 2 := by
  have h := Real.sqrt_lt_sqrt (by norm_num : (0:ℝ) ≤ 1) (by norm_num : (1:ℝ) < 2)
  rwa [Real.sqrt_one] at h

lemma sqrt_two_lt : Real.sqrt 2 < 7 / 4 := by
  have h : Real.sqrt 2 < Real.sqrt ((7 / 4) ^ 2) :=
    Real.sqrt_lt_sqrt (by norm_num) (by norm_num)
  rwa [Real.sqrt_sq (by norm_num : (0:ℝ) ≤ 7 / 4)] at h

lemma IOTA_pos : 0 < IOTA := by
  have h := sqrt_two_gt_one
  unfold IOTA; nlinarith

lemma IOTA_lt_one : IOTA < 1 := by
  have h := sqrt_two_lt
  unfold IOTA; nlinarith

lemma headroom_pos : 0 < 1 / IOTA - 1 := by
  have h1 := IOTA_pos
  have h2 := IOTA_lt_one
  have : 1 < 1 / IOTA := (one_lt_div h1).mpr h2
  linarith

lemma sqrt_eval {x c : ℝ} (hc : 0 ≤ c) (h : c * c = x) : Real.sqrt x = c := by
  rw [← h, Real.sqrt_mul_self hc]

lemma atan2_mem (y x : ℝ) : -Real.pi < atan2 y x ∧ atan2 y x ≤ Real.pi :=
  ⟨Complex.neg_pi_lt_arg _, Complex.arg_le_pi _⟩

lemma map_angle_id {a : ℝ} (h1 : -Real.pi ≤ a) (h2 : a ≤ Real.pi) :
    map_angle a = a := by
  unfold map_angle
  rw [if_neg (by linarith), if_neg (by linarith)]

lemma get_angle_mem (ax ay bx by2 : ℝ) :
    -Real.pi < get_angle ax ay bx by2 ∧ get_angle ax ay bx by2 ≤ Real.pi := by
  have h := atan2_mem (by2 - ay) (bx - ax)
  unfold get_angle
  rw [map_angle_id h.1.le h.2]
  exact h

lemma map_angle_mem_of_abs_lt {d : ℝ} (h1 : -(2 * Real.pi) < d)
    (h2 : d < 2 * Real.pi) :
    -Real.pi ≤ map_angle d ∧ map_angle d ≤ Real.pi := by
  have hpi := Real.pi_pos
  unfold map_angle
  split_ifs with ha hb
  · constructor <;> linarith
  · constructor <;> linarith
  · constructor <;> linarith

lemma map_angle_mem_of_Ioo {d : ℝ} (h1 : -Real.pi < d) (h2 : d < 3 * Real.pi) :
    -Real.pi < map_angle d ∧ map_angle d ≤ Real.pi := by
  have hpi := Real.pi_pos
  unfold map_angle
  split_ifs with ha hb
  · constructor <;> linarith
  · constructor <;> linarith
  · constructor <;> linarith

lemma tangent_theta_mem {p0x p0y p1x p1y p2x p2y p3x p3y theta0 theta1 : ℝ}
    (h : get_tangent_angles p0x p0y p1x p1y p2x p2y p3x p3y =
      some (theta0, theta1)) :
    (-Real.pi ≤ theta0 ∧ theta0 ≤ Real.pi) ∧
      (-Real.pi < theta1 ∧ theta1 ≤ Real.pi) := by
  have hAD := get_angle_mem p0x p0y p3x p3y
  have hAB := get_angle_mem p0x p0y p1x p1y
  have hDC := get_angle_mem p3x p3y p2x p2y
  simp only [get_tangent_angles, Option.some.injEq, Prod.mk.injEq] at h
  obtain ⟨h0, h1⟩ := h
  subst h0; subst h1
  refine ⟨map_angle_mem_of_abs_lt (by linarith) (by linarith), ?_⟩
  exact map_angle_mem_of_Ioo (by linarith) (by linarith)

lemma beta_mem {theta0 theta1 : ℝ} (h0l : -Real.pi ≤ theta0)
    (h0r : theta0 ≤ Real.pi) (h1l : -Real.pi ≤ theta1)
    (h1r : theta1 ≤ Real.pi) :
    0 ≤ beta_of theta0 theta1 ∧ beta_of theta0 theta1 ≤ Real.pi := by
  unfold beta_of alpha_of
  have ha0 := abs_nonneg theta0
  have ha1 := abs_nonneg theta1
  have hb0 : |theta0| ≤ Real.pi := abs_le.mpr ⟨by linarith, h0r⟩
  have hb1 : |theta1| ≤ Real.pi := abs_le.mpr ⟨by linarith, h1r⟩
  constructor <;> [positivity; linarith]

lemma sin_beta_nonneg {theta0 theta1 : ℝ} (h0l : -Real.pi ≤ theta0)
    (h0r : theta0 ≤ Real.pi) (h1l : -Real.pi ≤ theta1)
    (h1r : theta1 ≤ Real.pi) :
    0 ≤ Real.sin (beta_of theta0 theta1) := by
  obtain ⟨hl, hr⟩ := beta_mem h0l h0r h1l h1r
  exact Real.sin_nonneg_of_nonneg_of_le_pi hl hr

lemma radius0_of_nonneg {theta0 theta1 : ℝ} (h0l : -Real.pi ≤ theta0)
    (h0r : theta0 ≤ Real.pi) (h1l : -Real.pi ≤ theta1)
    (h1r : theta1 ≤ Real.pi) : 0 ≤ radius0_of theta0 theta1 := by
  have hs := sin_beta_nonneg h0l h0r h1l h1r
  unfold radius0_of
  split_ifs with h
  · have hpos : 0 < Real.sin (beta_of theta0 theta1) := hs.lt_of_ne (Ne.symm h)
    positivity
  · norm_num

lemma radius1_of_nonneg {theta0 theta1 : ℝ} (h0l : -Real.pi ≤ theta0)
    (h0r : theta0 ≤ Real.pi) (h1l : -Real.pi ≤ theta1)
    (h1r : theta1 ≤ Real.pi) : 0 ≤ radius1_of theta0 theta1 := by
  have hs := sin_beta_nonneg h0l h0r h1l h1r
  unfold radius1_of
  split_ifs with h
  · have hpos : 0 < Real.sin (beta_of theta0 theta1) := hs.lt_of_ne (Ne.symm h)
    positivity
  · norm_num

lemma kappa_base_of_nonneg {theta0 theta1 : ℝ} (h0l : -Real.pi ≤ theta0)
    (h0r : theta0 ≤ Real.pi) (h1l : -Real.pi ≤ theta1)
    (h1r : theta1 ≤ Real.pi) : 0 ≤ kappa_base_of theta0 theta1 := by
  have hs := sin_beta_nonneg h0l h0r h1l h1r
  have hc : Real.cos (beta_of theta0 theta1) ≤ 1 := Real.cos_le_one _
  unfold kappa_base_of
  split_ifs with h
  · have hpos : 0 < Real.sin (beta_of theta0 theta1) := hs.lt_of_ne (Ne.symm h)
    have : 0 ≤ 1 - Real.cos (beta_of theta0 theta1) := by linarith
    positivity
  · norm_num

lemma s_modifier_mem {theta0 theta1 tension adjustment : ℝ}
    (ht0 : 0 ≤ tension) (ht1 : tension ≤ 1)
    (ha0 : 0 ≤ adjustment) (ha1 : adjustment ≤ 1) :
    0 ≤ s_modifier theta0 theta1 tension adjustment ∧
      s_modifier theta0 theta1 tension adjustment ≤ 1 / IOTA - 1 := by
  have hM := headroom_pos
  have he0 : (0:ℝ) ≤
      |Real.sin theta0 * Real.cos theta1 - Real.cos theta0 * Real.sin theta1| :=
    abs_nonneg _
  have he1 :
      |Real.sin theta0 * Real.cos theta1 - Real.cos theta0 * Real.sin theta1|
        ≤ 1 := by
    rw [show Real.sin theta0 * Real.cos theta1 -
        Real.cos theta0 * Real.sin theta1 = Real.sin (theta0 - theta1) from
      (Real.sin_sub theta0 theta1).symm]
    exact abs_le.mpr ⟨Real.neg_one_le_sin _, Real.sin_le_one _⟩
  unfold s_modifier
  dsimp only
  set M := 1 / IOTA - 1 with hMdef
  set e :=
    |Real.sin theta0 * Real.cos theta1 - Real.cos theta0 * Real.sin theta1|
    with hedef
  set g := (1 - Real.cos (alpha_of theta0 theta1)) ^ 2 with hgdef
  have hg0 : 0 ≤ g := sq_nonneg _
  have hs0l : 0 ≤ tension * M := mul_nonneg ht0 hM.le
  have hs0r : tension * M ≤ M := mul_le_of_le_one_left hM.le ht1
  have hterm : 0 ≤ (M - tension * M) * e * adjustment := by
    apply mul_nonneg (mul_nonneg (by linarith) he0) ha0
  have hterm2 : (M - tension * M) * e * adjustment ≤ M - tension * M := by
    calc (M - tension * M) * e * adjustment
        ≤ (M - tension * M) * e * 1 := by
          apply mul_le_mul_of_nonneg_left ha1 (mul_nonneg (by linarith) he0)
      _ = (M - tension * M) * e := by ring
      _ ≤ (M - tension * M) * 1 := by
          apply mul_le_mul_of_nonneg_left he1 (by linarith)
      _ = M - tension * M := by ring
  have hs1l : 0 ≤ tension * M + (M - tension * M) * e * adjustment := by
    linarith
  have hs1r : tension * M + (M - tension * M) * e * adjustment ≤ M := by
    linarith
  split_ifs with hgt
  · constructor
    · simpa using hs1l
    · simpa using hs1r
  · constructor
    · exact mul_nonneg hs1l hg0
    · calc (tension * M + (M - tension * M) * e * adjustment) * g
          ≤ (tension * M + (M - tension * M) * e * adjustment) * 1 :=
            mul_le_mul_of_nonneg_left (by linarith) hs1l
        _ ≤ M := by linarith

lemma get_distance_nonneg (ax ay bx by2 : ℝ) :
    0 ≤ get_distance ax ay bx by2 := Real.sqrt_nonneg _

lemma dist_plus (px py t h d : ℝ) (hm : 0 ≤ h * d) :
    get_distance px py (px + Real.cos t * h * d) (py + Real.sin t * h * d)
      = h * d := by
  unfold get_distance
  rw [show (px - (px + Real.cos t * h * d)) ^ 2 +
      (py - (py + Real.sin t * h * d)) ^ 2 =
      (h * d) ^ 2 * ((Real.sin t) ^ 2 + (Real.cos t) ^ 2) from by ring,
    Real.sin_sq_add_cos_sq, mul_one, Real.sqrt_sq hm]

lemma dist_minus (px py t h d : ℝ) (hm : 0 ≤ h * d) :
    get_distance px py (px - Real.cos t * h * d) (py - Real.sin t * h * d)
      = h * d := by
  unfold get_distance
  rw [show (px - (px - Real.cos t * h * d)) ^ 2 +
      (py - (py - Real.sin t * h * d)) ^ 2 =
      (h * d) ^ 2 * ((Real.sin t) ^ 2 + (Real.cos t) ^ 2) from by ring,
    Real.sin_sq_add_cos_sq, mul_one, Real.sqrt_sq hm]

lemma area_bilinear (x0 y0 x3 y3 ux1 uy1 ux2 uy2 h1 h2 : ℝ) :
    bezier_area x0 y0 (x0 + ux1 * h1) (y0 + uy1 * h1)
      (x3 + ux2 * h2) (y3 + uy2 * h2) x3 y3 =
    (area_coefficients x0 y0 x3 y3 ux1 uy1 ux2 uy2).1 +
      (area_coefficients x0 y0 x3 y3 ux1 uy1 ux2 uy2).2.1 * h1 +
      (area_coefficients x0 y0 x3 y3 ux1 uy1 ux2 uy2).2.2.1 * h2 +
      (area_coefficients x0 y0 x3 y3 ux1 uy1 ux2 uy2).2.2.2 * h1 * h2 := by
  unfold bezier_area area_coefficients
  ring

lemma compute_handles_eq {p0x p0y p1x p1y p2x p2y p3x p3y theta0 theta1 : ℝ}
    (td ad : ℝ)
    (h : get_tangent_angles p0x p0y p1x p1y p2x p2y p3x p3y =
      some (theta0, theta1)) :
    compute_handles p0x p0y p1x p1y p2x p2y p3x p3y td ad =
      some (p0x + Real.cos (get_angle p0x p0y p3x p3y + theta0) *
              (radius0_of theta0 theta1 *
                ((1 + s_modifier theta0 theta1 (display_to_internal td)
                  (ad / 100)) * kappa_base_of theta0 theta1)) *
              get_distance p0x p0y p3x p3y,
            p0y + Real.sin (get_angle p0x p0y p3x p3y + theta0) *
              (radius0_of theta0 theta1 *
                ((1 + s_modifier theta0 theta1 (display_to_internal td)
                  (ad / 100)) * kappa_base_of theta0 theta1)) *
              get_distance p0x p0y p3x p3y,
            p3x - Real.cos (get_angle p0x p0y p3x p3y - theta1) *
              (radius1_of theta0 theta1 *
                ((1 + s_modifier theta0 theta1 (display_to_internal td)
                  (ad / 100)) * kappa_base_of theta0 theta1)) *
              get_distance p0x p0y p3x p3y,
            p3y - Real.sin (get_angle p0x p0y p3x p3y - theta1) *
              (radius1_of theta0 theta1 *
                ((1 + s_modifier theta0 theta1 (display_to_internal td)
                  (ad / 100)) * kappa_base_of theta0 theta1)) *
              get_distance p0x p0y p3x p3y) := by
  unfold compute_handles
  rw [h]

/-! ### C4: shear / unshear are exact inverses -/

/-- C4: the shear (deslant) transform `P ↦ (x - y*tan_slant, y)` and the
unshear (reslant) transform `P ↦ (x + y*tan_slant, y)` are exact inverses
of each other, for every point and every shear factor. -/
theorem deslant_reslant_inverse (x y tan_slant : ℝ) :
    reslant (deslant x y tan_slant).1 (deslant x y tan_slant).2 tan_slant
        = (x, y) ∧
      deslant (reslant x y tan_slant).1 (reslant x y tan_slant).2 tan_slant
        = (x, y) := by
  unfold deslant reslant
  constructor <;> simp

/-! ### C9: tension mapping round-trip -/

/-- C9: for every display value in [0, 100], converting to the internal
quadratic tension scale and back with the square-root inverse returns the
display value exactly (in real arithmetic). -/
theorem tension_roundtrip (display : ℝ) (h0 : 0 ≤ display)
    (h1 : display ≤ 100) :
    internal_to_display (display_to_internal display) = display := by
  unfold internal_to_display display_to_internal
  rw [if_neg (not_lt.mpr (by positivity)),
    Real.sqrt_mul_self (by positivity)]
  field_simp

/-- Witness for C9 at display value 49. -/
theorem tension_roundtrip_witness :
    (0:ℝ) ≤ 49 ∧ (49:ℝ) ≤ 100 ∧
      internal_to_display (display_to_internal 49) = 49 :=
  ⟨by norm_num, by norm_num, tension_roundtrip 49 (by norm_num) (by norm_num)⟩

/-! ### C8: smart node clamp -/

lemma smart_node_cases (p0ax p0ay a1x a1y a2x a2y nx ny
    b1x b1y b2x b2y p3bx p3by : ℝ) :
    smart_node_position p0ax p0ay a1x a1y a2x a2y nx ny
        b1x b1y b2x b2y p3bx p3by = (nx, ny) ∨
      (¬ get_distance a2x a2y b1x b1y < EPSILON ∧
        ∃ t : ℝ, 0.05 ≤ t ∧ t ≤ 0.95 ∧
          smart_node_position p0ax p0ay a1x a1y a2x a2y nx ny
              b1x b1y b2x b2y p3bx p3by =
            (b1x + t * (a2x - b1x), b1y + t * (a2y - b1y))) := by
  unfold smart_node_position
  dsimp only
  split_ifs with hguard
  · left; rfl
  · cases hli : line_intersection b1x b1y b2x b2y a2x a2y a1x a1y with
    | none => left; simp [hli]
    | some q =>
      obtain ⟨ix, iy⟩ := q
      simp only [hli]
      split_ifs with hguard2
      · left; rfl
      · right
        refine ⟨hguard, _, le_max_left _ _, ?_, rfl⟩
        exact max_le (by norm_num) (min_le_left _ _)

/-- C8: whenever `smart_node_position` returns a moved node, the new node
equals `b1 + t * (a2 - b1)` for an interpolation parameter `t` clamped into
`[0.05, 0.95]`, and the returned node never collapses onto either near
handle. -/
theorem smart_node_clamp (p0ax p0ay a1x a1y a2x a2y nx ny
    b1x b1y b2x b2y p3bx p3by : ℝ)
    (hmod : smart_node_position p0ax p0ay a1x a1y a2x a2y nx ny
      b1x b1y b2x b2y p3bx p3by ≠ (nx, ny)) :
    ∃ t : ℝ, 0.05 ≤ t ∧ t ≤ 0.95 ∧
      smart_node_position p0ax p0ay a1x a1y a2x a2y nx ny
          b1x b1y b2x b2y p3bx p3by =
        (b1x + t * (a2x - b1x), b1y + t * (a2y - b1y)) ∧
      smart_node_position p0ax p0ay a1x a1y a2x a2y nx ny
          b1x b1y b2x b2y p3bx p3by ≠ (a2x, a2y) ∧
      smart_node_position p0ax p0ay a1x a1y a2x a2y nx ny
          b1x b1y b2x b2y p3bx p3by ≠ (b1x, b1y) := by
  rcases smart_node_cases p0ax p0ay a1x a1y a2x a2y nx ny
      b1x b1y b2x b2y p3bx p3by with hid | ⟨hsep, t, ht1, ht2, heq⟩
  · exact absurd hid hmod
  · have hne : ¬(a2x = b1x ∧ a2y = b1y) := by
      rintro ⟨hx, hy⟩
      apply hsep
      rw [hx, hy]
      unfold get_distance EPSILON
      simp
      norm_num
    refine ⟨t, ht1, ht2, heq, ?_, ?_⟩
    · rw [heq]
      intro hc
      rw [Prod.mk.injEq] at hc
      obtain ⟨hcx, hcy⟩ := hc
      have h1t : (0:ℝ) < 1 - t := by linarith
      apply hne
      have hx : (1 - t) * (a2x - b1x) = 0 := by linear_combination -hcx
      have hy : (1 - t) * (a2y - b1y) = 0 := by linear_combination -hcy
      constructor
      · have := (mul_eq_zero.mp hx).resolve_left (by linarith)
        linarith
      · have := (mul_eq_zero.mp hy).resolve_left (by linarith)
        linarith
    · rw [heq]
      intro hc
      rw [Prod.mk.injEq] at hc
      obtain ⟨hcx, hcy⟩ := hc
      have h0t : (0:ℝ) < t := by linarith
      apply hne
      have hx : t * (a2x - b1x) = 0 := by linear_combination hcx
      have hy : t * (a2y - b1y) = 0 := by linear_combination hcy
      constructor
      · have := (mul_eq_zero.mp hx).resolve_left (by linarith)
        linarith
      · have := (mul_eq_zero.mp hy).resolve_left (by linarith)
        linarith

lemma smart_node_eval_w :
    smart_node_position 0 0 (-2) 1 (-1) 0 0 5 1 0 2 1 3 0 = ((0:ℝ), (0:ℝ)) := by
  have e4 : Real.sqrt 4 = 2 := sqrt_eval (by norm_num) (by norm_num)
  have hs2 : Real.sqrt 2 ≠ 0 := by positivity
  unfold smart_node_position line_intersection get_distance EPSILON
  norm_num [e4, div_self hs2, min_def, max_def] <;>
    linarith [sqrt_two_gt_one]

/-- Witness for C8 at a concrete symmetric node window where the node is
moved to the midpoint of the two near handles. -/
theorem smart_node_clamp_witness :
    smart_node_position 0 0 (-2) 1 (-1) 0 0 5 1 0 2 1 3 0 ≠ ((0:ℝ), (5:ℝ)) ∧
      (∃ t : ℝ, 0.05 ≤ t ∧ t ≤ 0.95 ∧
        smart_node_position 0 0 (-2) 1 (-1) 0 0 5 1 0 2 1 3 0
          = (1 + t * (-1 - 1), 0 + t * (0 - 0)) ∧
        smart_node_position 0 0 (-2) 1 (-1) 0 0 5 1 0 2 1 3 0 ≠ (-1, 0) ∧
        smart_node_position 0 0 (-2) 1 (-1) 0 0 5 1 0 2 1 3 0 ≠ (1, 0)) := by
  have hne : smart_node_position 0 0 (-2) 1 (-1) 0 0 5 1 0 2 1 3 0
      ≠ ((0:ℝ), (5:ℝ)) := by
    rw [smart_node_eval_w]
    intro hc
    rw [Prod.mk.injEq] at hc
    exact absurd hc.2 (by norm_num)
  exact ⟨hne, smart_node_clamp 0 0 (-2) 1 (-1) 0 0 5 1 0 2 1 3 0 hne⟩

/-! ### C5: angle normalization ranges -/

lemma atan2_eq_zero {y x : ℝ} (hy : y = 0) (hx : 0 ≤ x) : atan2 y x = 0 := by
  unfold atan2
  rw [Complex.arg_eq_zero_iff]
  exact ⟨hx, hy⟩

lemma atan2_eq_pi {y x : ℝ} (hy : y = 0) (hx : x < 0) : atan2 y x = Real.pi := by
  unfold atan2
  rw [Complex.arg_eq_pi_iff]
  exact ⟨hx, hy⟩

lemma atan2_eq_pi_div_two {y x : ℝ} (hx : x = 0) (hy : 0 < y) :
    atan2 y x = Real.pi / 2 := by
  unfold atan2
  rw [Complex.arg_eq_pi_div_two_iff]
  exact ⟨hx, hy⟩

/-- C5 (amended): for distinct points, `get_angle` lies in the half-open
interval `(-π, π]`; of the two tangent departure angles, `θ1` is normalized
to `(-π, π]`, but `θ0` is only guaranteed to lie in the closed interval
`[-π, π]` — the value `θ0 = -π` is attained. -/
theorem angle_range_amended :
    (∀ ax ay bx by2 : ℝ, (ax, ay) ≠ (bx, by2) →
      -Real.pi < get_angle ax ay bx by2 ∧ get_angle ax ay bx by2 ≤ Real.pi) ∧
    (∀ p0x p0y p1x p1y p2x p2y p3x p3y theta0 theta1 : ℝ,
      get_tangent_angles p0x p0y p1x p1y p2x p2y p3x p3y =
        some (theta0, theta1) →
      (-Real.pi ≤ theta0 ∧ theta0 ≤ Real.pi) ∧
        (-Real.pi < theta1 ∧ theta1 ≤ Real.pi)) :=
  ⟨fun ax ay bx by2 _ => get_angle_mem ax ay bx by2,
   fun _ _ _ _ _ _ _ _ _ _ h => tangent_theta_mem h⟩

/-- Witness for the amended C5 at A = (0,0), B = (1,0). -/
theorem angle_range_amended_witness :
    ((0:ℝ), (0:ℝ)) ≠ ((1:ℝ), (0:ℝ)) ∧
      (-Real.pi < get_angle 0 0 1 0 ∧ get_angle 0 0 1 0 ≤ Real.pi) := by
  have hne : ((0:ℝ), (0:ℝ)) ≠ ((1:ℝ), (0:ℝ)) := by
    norm_num [Prod.ext_iff]
  exact ⟨hne, angle_range_amended.1 0 0 1 0 hne⟩

/-- Counterexample to C5 as stated: for the segment `P0 = (0,0)`,
`P1 = (1,0)`, `P2 = (-1,1)`, `P3 = (-1,0)` the first handle points exactly
opposite the chord, and the returned `θ0` equals `-π`, which is not in the
half-open interval `(-π, π]`. -/
theorem tangent_angle_range_counterexample :
    get_tangent_angles 0 0 1 0 (-1) 1 (-1) 0 =
        some (-Real.pi, -(Real.pi / 2)) ∧
      -Real.pi ∉ Set.Ioc (-Real.pi) Real.pi := by
  have hpi := Real.pi_pos
  have hAD : get_angle 0 0 (-1) 0 = Real.pi := by
    unfold get_angle
    rw [atan2_eq_pi (by norm_num) (by norm_num)]
    exact map_angle_id (by linarith) le_rfl
  have hAB : get_angle 0 0 1 0 = 0 := by
    unfold get_angle
    rw [atan2_eq_zero (by norm_num) (by norm_num)]
    exact map_angle_id (by linarith) (by linarith)
  have hDC : get_angle (-1) 0 (-1) 1 = Real.pi / 2 := by
    unfold get_angle
    rw [atan2_eq_pi_div_two (by norm_num) (by norm_num)]
    exact map_angle_id (by linarith) (by linarith)
  constructor
  · unfold get_tangent_angles
    dsimp only
    rw [hAD, hAB, hDC]
    unfold map_angle
    rw [if_neg (by linarith), if_neg (by linarith), if_pos (by linarith)]
    simp only [Option.some.injEq, Prod.mk.injEq]
    constructor <;> ring
  · simp

/-! ### C2: degenerate-input behavior of the four main functions -/

lemma sqrt_prod_dist (ax ay bx by2 : ℝ) :
    Real.sqrt ((bx - ax) * (bx - ax) + (by2 - ay) * (by2 - ay)) =
      get_distance ax ay bx by2 := by
  unfold get_distance
  congr 1
  ring

lemma redistribute_zero_fallback
    (p0x p0y p1_orig_x p1_orig_y p2_orig_x p2_orig_y
      p1_bal_x p1_bal_y p2_bal_x p2_bal_y p3x p3y : ℝ)
    (h : get_distance p0x p0y p1_bal_x p1_bal_y < EPSILON ∨
      get_distance p3x p3y p2_bal_x p2_bal_y < EPSILON ∨
      get_distance p0x p0y p1_orig_x p1_orig_y < EPSILON ∨
      get_distance p3x p3y p2_orig_x p2_orig_y < EPSILON) :
    redistribute_handles p0x p0y p1_orig_x p1_orig_y p2_orig_x p2_orig_y
        p1_bal_x p1_bal_y p2_bal_x p2_bal_y p3x p3y =
      (p1_bal_x, p1_bal_y, p2_bal_x, p2_bal_y) := by
  unfold redistribute_handles
  dsimp only
  rw [sqrt_prod_dist p0x p0y p1_bal_x p1_bal_y,
    sqrt_prod_dist p3x p3y p2_bal_x p2_bal_y,
    sqrt_prod_dist p0x p0y p1_orig_x p1_orig_y,
    sqrt_prod_dist p3x p3y p2_orig_x p2_orig_y]
  split_ifs <;> first | rfl | tauto

lemma smooth_zero_fallback
    (p0ax p0ay a1x a1y a2x a2y nx ny b1x b1y b2x b2y p3bx p3by : ℝ)
    (h : get_distance nx ny a2x a2y < EPSILON ∨
      get_distance nx ny b1x b1y < EPSILON) :
    smooth_handles_at_node p0ax p0ay a1x a1y a2x a2y nx ny
        b1x b1y b2x b2y p3bx p3by = (a2x, a2y, b1x, b1y) := by
  unfold smooth_handles_at_node
  dsimp only
  rw [sqrt_prod_dist nx ny a2x a2y, sqrt_prod_dist nx ny b1x b1y]
  rw [if_pos h]

lemma smart_coincident_fallback
    (p0ax p0ay a1x a1y a2x a2y nx ny b1x b1y b2x b2y p3bx p3by : ℝ)
    (h : get_distance a2x a2y b1x b1y < EPSILON) :
    smart_node_position p0ax p0ay a1x a1y a2x a2y nx ny
        b1x b1y b2x b2y p3bx p3by = (nx, ny) := by
  unfold smart_node_position
  dsimp only
  rw [if_pos h]

lemma compute_handles_ne_none
    (p0x p0y p1x p1y p2x p2y p3x p3y td ad : ℝ) :
    compute_handles p0x p0y p1x p1y p2x p2y p3x p3y td ad ≠ none := by
  rw [compute_handles_eq td ad rfl]
  simp

lemma compute_handles_coincident (p0x p0y p1x p1y p2x p2y td ad : ℝ) :
    compute_handles p0x p0y p1x p1y p2x p2y p0x p0y td ad =
      some (p0x, p0y, p0x, p0y) := by
  rw [compute_handles_eq td ad rfl]
  have hd : get_distance p0x p0y p0x p0y = 0 := by
    unfold get_distance
    simp
  rw [hd]
  norm_num

/-- C2 (amended): zero-length-handle inputs to `redistribute_handles` and
`smooth_handles_at_node` return the balanced/input handles unchanged, and
coincident near handles make `smart_node_position` return the node
unchanged; but `compute_handles` has no degenerate guard: it never returns
the no-result signal, and on coincident `P0 = P3` it returns the handles
collapsed onto the common endpoint rather than a fallback. -/
theorem degenerate_fallback_amended :
    (∀ p0x p0y p1ox p1oy p2ox p2oy p1bx p1by p2bx p2by p3x p3y : ℝ,
      (get_distance p0x p0y p1bx p1by < EPSILON ∨
        get_distance p3x p3y p2bx p2by < EPSILON ∨
        get_distance p0x p0y p1ox p1oy < EPSILON ∨
        get_distance p3x p3y p2ox p2oy < EPSILON) →
      redistribute_handles p0x p0y p1ox p1oy p2ox p2oy
          p1bx p1by p2bx p2by p3x p3y = (p1bx, p1by, p2bx, p2by)) ∧
    (∀ p0ax p0ay a1x a1y a2x a2y nx ny b1x b1y b2x b2y p3bx p3by : ℝ,
      (get_distance nx ny a2x a2y < EPSILON ∨
        get_distance nx ny b1x b1y < EPSILON) →
      smooth_handles_at_node p0ax p0ay a1x a1y a2x a2y nx ny
          b1x b1y b2x b2y p3bx p3by = (a2x, a2y, b1x, b1y)) ∧
    (∀ p0ax p0ay a1x a1y a2x a2y nx ny b1x b1y b2x b2y p3bx p3by : ℝ,
      get_distance a2x a2y b1x b1y < EPSILON →
      smart_node_position p0ax p0ay a1x a1y a2x a2y nx ny
          b1x b1y b2x b2y p3bx p3by = (nx, ny)) ∧
    (∀ p0x p0y p1x p1y p2x p2y p3x p3y td ad : ℝ,
      compute_handles p0x p0y p1x p1y p2x p2y p3x p3y td ad ≠ none) ∧
    (∀ p0x p0y p1x p1y p2x p2y td ad : ℝ,
      compute_handles p0x p0y p1x p1y p2x p2y p0x p0y td ad =
        some (p0x, p0y, p0x, p0y)) :=
  ⟨redistribute_zero_fallback, smooth_zero_fallback,
   smart_coincident_fallback, compute_handles_ne_none,
   compute_handles_coincident⟩

/-- Witness for the amended C2: a zero-length balanced first handle makes
`redistribute_handles` return the balanced handles unchanged. -/
theorem degenerate_fallback_amended_witness :
    get_distance 0 0 0 0 < EPSILON ∧
      redistribute_handles 0 0 1 0 1 1 0 0 2 2 1 0 = (0, 0, 2, 2) := by
  have hz : get_distance (0:ℝ) 0 0 0 < EPSILON := by
    unfold get_distance EPSILON
    norm_num
  exact ⟨hz,
    degenerate_fallback_amended.1 0 0 1 0 1 1 0 0 2 2 1 0 (Or.inl hz)⟩

/-- Counterexample to C2 as stated: with coincident endpoints
`P0 = P3 = (0,0)` and handles `P1 = (1,0)`, `P2 = (0,1)` (at tension 0,
adjustment 0), `compute_handles` returns neither the no-result signal nor
the input handles unchanged — it returns the handles collapsed onto the
common endpoint. -/
theorem compute_handles_degenerate_counterexample :
    compute_handles 0 0 1 0 0 1 0 0 0 0 ≠ none ∧
      compute_handles 0 0 1 0 0 1 0 0 0 0 ≠ some (1, 0, 0, 1) := by
  have he := compute_handles_coincident 0 0 1 0 0 1 0 0
  rw [he]
  constructor
  · simp
  · simp only [ne_eq, Option.some.injEq, Prod.mk.injEq]
    norm_num

/-! ### C3: squircle ceiling at tension 100, adjustment 0 -/

lemma s_modifier_ceiling {theta0 theta1 : ℝ}
    (hdamp : 1 ≤ (1 - Real.cos (alpha_of theta0 theta1)) ^ 2) :
    s_modifier theta0 theta1 (display_to_internal 100) (0 / 100) =
      1 / IOTA - 1 := by
  unfold s_modifier display_to_internal
  dsimp only
  rcases eq_or_lt_of_le hdamp with heq | hlt
  · rw [if_neg (not_lt.mpr heq.ge), ← heq]
    norm_num
  · rw [if_pos hlt]
    norm_num

lemma tangent_quadrant_eval :
    get_tangent_angles 0 0 0 1 1 1 1 0 =
      some (Real.pi / 2, Real.pi / 2) := by
  have hpi := Real.pi_pos
  have hAD : get_angle 0 0 1 0 = 0 := by
    unfold get_angle
    rw [atan2_eq_zero (by norm_num) (by norm_num)]
    exact map_angle_id (by linarith) (by linarith)
  have hAB : get_angle 0 0 0 1 = Real.pi / 2 := by
    unfold get_angle
    rw [atan2_eq_pi_div_two (by norm_num) (by norm_num)]
    exact map_angle_id (by linarith) (by linarith)
  have hDC : get_angle 1 0 1 1 = Real.pi / 2 := by
    unfold get_angle
    rw [atan2_eq_pi_div_two (by norm_num) (by norm_num)]
    exact map_angle_id (by linarith) (by linarith)
  unfold get_tangent_angles
  dsimp only
  rw [hAD, hAB, hDC]
  rw [map_angle_id (by linarith) (by linarith),
    map_angle_id (by linarith) (by linarith)]
  simp only [Option.some.injEq, Prod.mk.injEq]
  constructor <;> ring

/-- C3 (amended): for every segment whose tangent angles can be computed
and whose total turning angle `α` satisfies `(1 - cos α)² ≥ 1` (so the
angle-damping factor clamps to 1), `compute_handles` with
`tension_display = 100` and `adjustment_display = 0` produces handle
lengths `radius_i * (1/IOTA) * kappa_base` times the chord length exactly;
for smaller turning angles the damping step scales the modifier below its
ceiling. -/
theorem squircle_ceiling_amended
    (p0x p0y p1x p1y p2x p2y p3x p3y theta0 theta1 : ℝ)
    (htan : get_tangent_angles p0x p0y p1x p1y p2x p2y p3x p3y =
      some (theta0, theta1))
    (hdamp : 1 ≤ (1 - Real.cos (alpha_of theta0 theta1)) ^ 2)
    (r1x r1y r2x r2y : ℝ)
    (hres : compute_handles p0x p0y p1x p1y p2x p2y p3x p3y 100 0 =
      some (r1x, r1y, r2x, r2y)) :
    get_distance p0x p0y r1x r1y =
      radius0_of theta0 theta1 * (1 / IOTA) * kappa_base_of theta0 theta1 *
        get_distance p0x p0y p3x p3y ∧
    get_distance p3x p3y r2x r2y =
      radius1_of theta0 theta1 * (1 / IOTA) * kappa_base_of theta0 theta1 *
        get_distance p0x p0y p3x p3y := by
  obtain ⟨⟨h0l, h0r⟩, ⟨h1l, h1r⟩⟩ := tangent_theta_mem htan
  have hr0 := radius0_of_nonneg h0l h0r h1l.le h1r
  have hr1 := radius1_of_nonneg h0l h0r h1l.le h1r
  have hkb := kappa_base_of_nonneg h0l h0r h1l.le h1r
  have hD := get_distance_nonneg p0x p0y p3x p3y
  have hIpos := IOTA_pos
  have hIinv : (0:ℝ) < 1 / IOTA := by positivity
  rw [compute_handles_eq 100 0 htan] at hres
  simp only [Option.some.injEq, Prod.mk.injEq] at hres
  obtain ⟨e1, e2, e3, e4⟩ := hres
  subst e1; subst e2; subst e3; subst e4
  rw [s_modifier_ceiling hdamp]
  have hfac : (0:ℝ) ≤
      radius0_of theta0 theta1 * ((1 + (1 / IOTA - 1)) *
        kappa_base_of theta0 theta1) * get_distance p0x p0y p3x p3y := by
    have h1s : (0:ℝ) ≤ 1 + (1 / IOTA - 1) := by linarith
    positivity
  have hfac1 : (0:ℝ) ≤
      radius1_of theta0 theta1 * ((1 + (1 / IOTA - 1)) *
        kappa_base_of theta0 theta1) * get_distance p0x p0y p3x p3y := by
    have h1s : (0:ℝ) ≤ 1 + (1 / IOTA - 1) := by linarith
    positivity
  rw [dist_plus _ _ _ _ _ (by
    simpa [mul_assoc] using hfac)]
  rw [dist_minus _ _ _ _ _ (by
    simpa [mul_assoc] using hfac1)]
  constructor <;> ring

/-- Witness for the amended C3 at the segment (0,0), (0,1), (1,1), (1,0),
whose tangent angles are (π/2, π/2) and total turning angle is π. -/
theorem squircle_ceiling_amended_witness :
    get_tangent_angles 0 0 0 1 1 1 1 0 = some (Real.pi / 2, Real.pi / 2) ∧
    1 ≤ (1 - Real.cos (alpha_of (Real.pi / 2) (Real.pi / 2))) ^ 2 ∧
    ∃ r1x r1y r2x r2y : ℝ,
      compute_handles 0 0 0 1 1 1 1 0 100 0 = some (r1x, r1y, r2x, r2y) ∧
      get_distance 0 0 r1x r1y =
        radius0_of (Real.pi / 2) (Real.pi / 2) * (1 / IOTA) *
          kappa_base_of (Real.pi / 2) (Real.pi / 2) *
          get_distance 0 0 1 0 ∧
      get_distance 1 0 r2x r2y =
        radius1_of (Real.pi / 2) (Real.pi / 2) * (1 / IOTA) *
          kappa_base_of (Real.pi / 2) (Real.pi / 2) *
          get_distance 0 0 1 0 := by
  have htan := tangent_quadrant_eval
  have hdamp : 1 ≤ (1 - Real.cos (alpha_of (Real.pi / 2) (Real.pi / 2))) ^ 2
      := by
    unfold alpha_of
    rw [abs_of_nonneg (by positivity : (0:ℝ) ≤ Real.pi / 2),
      show Real.pi / 2 + Real.pi / 2 = Real.pi from by ring, Real.cos_pi]
    norm_num
  refine ⟨htan, hdamp, _, _, _, _, compute_handles_eq 100 0 htan, ?_⟩
  exact squircle_ceiling_amended 0 0 0 1 1 1 1 0 _ _ htan hdamp _ _ _ _
    (compute_handles_eq 100 0 htan)

/-- Counterexample to C3 as stated: for the collinear segment (0,0), (1,0),
(2,0), (3,0) the tangent angles are computable (both zero), but at
tension 100 / adjustment 0 the angle-damping step zeroes the modifier, so
the first handle length (= 1) is not `radius0 * (1/IOTA) * kappa_base`
times the chord length (= 1/IOTA > 1). -/
theorem squircle_ceiling_counterexample :
    get_tangent_angles 0 0 1 0 2 0 3 0 = some (0, 0) ∧
    compute_handles 0 0 1 0 2 0 3 0 100 0 = some (1, 0, 2, 0) ∧
    get_distance 0 0 1 0 ≠
      radius0_of 0 0 * (1 / IOTA) * kappa_base_of 0 0 *
        get_distance 0 0 3 0 := by
  have hpi := Real.pi_pos
  have hAD : get_angle 0 0 3 0 = 0 := by
    unfold get_angle
    rw [atan2_eq_zero (by norm_num) (by norm_num)]
    exact map_angle_id (by linarith) (by linarith)
  have hAB : get_angle 0 0 1 0 = 0 := by
    unfold get_angle
    rw [atan2_eq_zero (by norm_num) (by norm_num)]
    exact map_angle_id (by linarith) (by linarith)
  have hDC : get_angle 3 0 2 0 = Real.pi := by
    unfold get_angle
    rw [atan2_eq_pi (by norm_num) (by norm_num)]
    exact map_angle_id (by linarith) le_rfl
  have htan : get_tangent_angles 0 0 1 0 2 0 3 0 = some (0, 0) := by
    unfold get_tangent_angles
    dsimp only
    rw [hAD, hAB, hDC]
    rw [map_angle_id (by linarith) (by linarith),
      map_angle_id (by linarith) (by linarith)]
    simp only [Option.some.injEq, Prod.mk.injEq]
    constructor <;> ring
  have hs : s_modifier 0 0 (display_to_internal 100) (0 / 100) = 0 := by
    unfold s_modifier display_to_internal alpha_of
    dsimp only
    norm_num [Real.sin_zero, Real.cos_zero]
  have hr0 : radius0_of 0 0 = 0.5 := by
    unfold radius0_of beta_of alpha_of
    norm_num [Real.sin_zero]
  have hr1 : radius1_of 0 0 = 0.5 := by
    unfold radius1_of beta_of alpha_of
    norm_num [Real.sin_zero]
  have hkb : kappa_base_of 0 0 = 2 / 3 := by
    unfold kappa_base_of beta_of alpha_of
    norm_num [Real.sin_zero]
  have hD : get_distance 0 0 3 0 = 3 := by
    unfold get_distance
    rw [show ((0:ℝ) - 3) ^ 2 + ((0:ℝ) - 0) ^ 2 = 3 * 3 from by norm_num]
    exact sqrt_eval (by norm_num) rfl
  have hD1 : get_distance 0 0 1 0 = 1 := by
    unfold get_distance
    norm_num
  refine ⟨htan, ?_, ?_⟩
  · rw [compute_handles_eq 100 0 htan, hs, hr0, hr1, hkb, hAD, hD]
    norm_num [Real.cos_zero, Real.sin_zero]
  · rw [hD1, hD, hr0, hkb]
    have hI1 : 1 < 1 / IOTA := (one_lt_div IOTA_pos).mpr IOTA_lt_one
    intro hcontra
    rw [show (0.5:ℝ) * (1 / IOTA) * (2 / 3) * 3 = 1 / IOTA from by ring]
      at hcontra
    linarith

/-! ### C10: modifier and handle-length bounds for in-range parameters -/

/-- C10: for every segment and all display parameters in [0, 100], the
superellipticity modifier `s` stays in `[0, 1/IOTA - 1]` after the
eccentricity-compensation and angle-damping steps, the applied kappa
multiplier `1 + s` lies in `[1, 1/IOTA]`, and each output handle length
lies between the circle baseline `radius_i * kappa_base` and the squircle
ceiling `radius_i * (1/IOTA) * kappa_base`, times the chord length. -/
theorem handle_length_bounds
    (p0x p0y p1x p1y p2x p2y p3x p3y td ad : ℝ)
    (htd0 : 0 ≤ td) (htd1 : td ≤ 100) (had0 : 0 ≤ ad) (had1 : ad ≤ 100)
    (theta0 theta1 : ℝ)
    (htan : get_tangent_angles p0x p0y p1x p1y p2x p2y p3x p3y =
      some (theta0, theta1))
    (r1x r1y r2x r2y : ℝ)
    (hres : compute_handles p0x p0y p1x p1y p2x p2y p3x p3y td ad =
      some (r1x, r1y, r2x, r2y)) :
    (0 ≤ s_modifier theta0 theta1 (display_to_internal td) (ad / 100) ∧
      s_modifier theta0 theta1 (display_to_internal td) (ad / 100) ≤
        1 / IOTA - 1) ∧
    (1 ≤ 1 + s_modifier theta0 theta1 (display_to_internal td) (ad / 100) ∧
      1 + s_modifier theta0 theta1 (display_to_internal td) (ad / 100) ≤
        1 / IOTA) ∧
    (radius0_of theta0 theta1 * kappa_base_of theta0 theta1 *
        get_distance p0x p0y p3x p3y ≤ get_distance p0x p0y r1x r1y ∧
      get_distance p0x p0y r1x r1y ≤
        radius0_of theta0 theta1 * (1 / IOTA) *
          kappa_base_of theta0 theta1 * get_distance p0x p0y p3x p3y) ∧
    (radius1_of theta0 theta1 * kappa_base_of theta0 theta1 *
        get_distance p0x p0y p3x p3y ≤ get_distance p3x p3y r2x r2y ∧
      get_distance p3x p3y r2x r2y ≤
        radius1_of theta0 theta1 * (1 / IOTA) *
          kappa_base_of theta0 theta1 * get_distance p0x p0y p3x p3y) := by
  obtain ⟨⟨h0l, h0r⟩, ⟨h1l, h1r⟩⟩ := tangent_theta_mem htan
  have hr0 := radius0_of_nonneg h0l h0r h1l.le h1r
  have hr1 := radius1_of_nonneg h0l h0r h1l.le h1r
  have hkb := kappa_base_of_nonneg h0l h0r h1l.le h1r
  have hD := get_distance_nonneg p0x p0y p3x p3y
  have ht0 : 0 ≤ display_to_internal td := by
    unfold display_to_internal
    positivity
  have ht1 : display_to_internal td ≤ 1 := by
    unfold display_to_internal
    nlinarith
  have ha0 : 0 ≤ ad / 100 := by linarith
  have ha1 : ad / 100 ≤ 1 := by linarith
  obtain ⟨hs0, hs1⟩ := @s_modifier_mem theta0 theta1
    (display_to_internal td) (ad / 100) ht0 ht1 ha0 ha1
  have hIinv : (0:ℝ) < 1 / IOTA := by
    have := IOTA_pos
    positivity
  refine ⟨⟨hs0, hs1⟩, ⟨by linarith, by linarith⟩, ?_, ?_⟩ <;>
  · rw [compute_handles_eq td ad htan] at hres
    simp only [Option.some.injEq, Prod.mk.injEq] at hres
    obtain ⟨e1, e2, e3, e4⟩ := hres
    subst e1; subst e2; subst e3; subst e4
    set S := s_modifier theta0 theta1 (display_to_internal td) (ad / 100)
      with hSdef
    have h1S : (0:ℝ) ≤ 1 + S := by linarith
    first
    | (rw [dist_plus _ _ _ _ _ (by positivity)]
       constructor
       · nlinarith [mul_nonneg (mul_nonneg hr0 hkb) hD]
       · nlinarith [mul_nonneg (mul_nonneg (mul_nonneg hr0 hkb) hD)
           (by linarith : (0:ℝ) ≤ 1 / IOTA - (1 + S))])
    | (rw [dist_minus _ _ _ _ _ (by positivity)]
       constructor
       · nlinarith [mul_nonneg (mul_nonneg hr1 hkb) hD]
       · nlinarith [mul_nonneg (mul_nonneg (mul_nonneg hr1 hkb) hD)
           (by linarith : (0:ℝ) ≤ 1 / IOTA - (1 + S))])

/-- Witness for C10 at the quadrant segment with tension 20,
adjustment 50. -/
theorem handle_length_bounds_witness :
    ((0:ℝ) ≤ 20 ∧ (20:ℝ) ≤ 100 ∧ (0:ℝ) ≤ 50 ∧ (50:ℝ) ≤ 100) ∧
    get_tangent_angles 0 0 0 1 1 1 1 0 =
      some (Real.pi / 2, Real.pi / 2) ∧
    ∃ r1x r1y r2x r2y : ℝ,
      compute_handles 0 0 0 1 1 1 1 0 20 50 = some (r1x, r1y, r2x, r2y) ∧
      (0 ≤ s_modifier (Real.pi / 2) (Real.pi / 2)
          (display_to_internal 20) (50 / 100) ∧
        s_modifier (Real.pi / 2) (Real.pi / 2)
          (display_to_internal 20) (50 / 100) ≤ 1 / IOTA - 1) ∧
      get_distance 0 0 r1x r1y ≤
        radius0_of (Real.pi / 2) (Real.pi / 2) * (1 / IOTA) *
          kappa_base_of (Real.pi / 2) (Real.pi / 2) *
          get_distance 0 0 1 0 := by
  have htan := tangent_quadrant_eval
  have hmain := handle_length_bounds 0 0 0 1 1 1 1 0 20 50
    (by norm_num) (by norm_num) (by norm_num) (by norm_num)
    _ _ htan _ _ _ _ (compute_handles_eq 20 50 htan)
  exact ⟨by norm_num, htan,
    _, _, _, _, compute_handles_eq 20 50 htan, hmain.1, hmain.2.2.1.2⟩

/-! ### C1 / C6: the redistribution solver -/

lemma EPS_pos : (0:ℝ) < EPSILON := by
  unfold EPSILON
  norm_num

lemma quad_root_plus {a b c : ℝ} (ha : a ≠ 0) (hd : 0 ≤ b * b - 4 * a * c) :
    a * ((-b + Real.sqrt (b * b - 4 * a * c)) / (2 * a)) ^ 2 +
      b * ((-b + Real.sqrt (b * b - 4 * a * c)) / (2 * a)) + c = 0 := by
  set s := Real.sqrt (b * b - 4 * a * c) with hsdef
  have hs : s ^ 2 = b * b - 4 * a * c := Real.sq_sqrt hd
  have expand : a * ((-b + s) / (2 * a)) ^ 2 + b * ((-b + s) / (2 * a)) + c =
      (s ^ 2 - (b * b - 4 * a * c)) / (4 * a) := by
    field_simp
    ring
  rw [expand, hs, sub_self, zero_div]

lemma quad_root_minus {a b c : ℝ} (ha : a ≠ 0) (hd : 0 ≤ b * b - 4 * a * c) :
    a * ((-b - Real.sqrt (b * b - 4 * a * c)) / (2 * a)) ^ 2 +
      b * ((-b - Real.sqrt (b * b - 4 * a * c)) / (2 * a)) + c = 0 := by
  set s := Real.sqrt (b * b - 4 * a * c) with hsdef
  have hs : s ^ 2 = b * b - 4 * a * c := Real.sq_sqrt hd
  have expand : a * ((-b - s) / (2 * a)) ^ 2 + b * ((-b - s) / (2 * a)) + c =
      (s ^ 2 - (b * b - 4 * a * c)) / (4 * a) := by
    field_simp
    ring
  rw [expand, hs, sub_self, zero_div]

lemma solve_some_pos {c0 c1 c2 c12 A_target r h2_bal h2n : ℝ}
    (h : solve_h2_for_r c0 c1 c2 c12 A_target r h2_bal = some h2n) :
    EPSILON < h2n := by
  unfold solve_h2_for_r at h
  dsimp only at h
  split_ifs at h <;>
    first
      | exact Option.noConfusion h
      | (simp only [Option.some.injEq] at h; subst h; assumption)
      | (simp only [Option.some.injEq] at h; subst h;
         split_ifs <;> assumption)

lemma solve_some_root {c0 c1 c2 c12 A_target r h2_bal h2n : ℝ}
    (hbr : c12 * r = 0 ∨ 1e-12 ≤ |c12 * r|)
    (h : solve_h2_for_r c0 c1 c2 c12 A_target r h2_bal = some h2n) :
    c12 * r * h2n ^ 2 + (c1 * r + c2) * h2n + (c0 - A_target) = 0 := by
  unfold solve_h2_for_r at h
  dsimp only at h
  by_cases hA : |c12 * r| < 1e-12
  · rw [if_pos hA] at h
    have ha0 : c12 * r = 0 := by
      rcases hbr with ha0 | hage
      · exact ha0
      · linarith
    by_cases hB : |c1 * r + c2| < 1e-12
    · rw [if_pos hB] at h
      exact Option.noConfusion h
    · rw [if_neg hB] at h
      have hbne : c1 * r + c2 ≠ 0 :=
        abs_pos.mp (lt_of_lt_of_le (by norm_num) (not_lt.mp hB))
      by_cases hC : -(c0 - A_target) / (c1 * r + c2) > EPSILON
      · rw [if_pos hC] at h
        simp only [Option.some.injEq] at h
        subst h
        rw [ha0]
        field_simp
      · rw [if_neg hC] at h
        exact Option.noConfusion h
  · rw [if_neg hA] at h
    have hane : c12 * r ≠ 0 :=
      abs_pos.mp (lt_of_lt_of_le (by norm_num) (not_lt.mp hA))
    by_cases hD : (c1 * r + c2) * (c1 * r + c2) -
        4 * (c12 * r) * (c0 - A_target) < 0
    · rw [if_pos hD] at h
      exact Option.noConfusion h
    · rw [if_neg hD] at h
      have hdn : 0 ≤ (c1 * r + c2) * (c1 * r + c2) -
          4 * (c12 * r) * (c0 - A_target) := not_lt.mp hD
      by_cases hE : (-(c1 * r + c2) + Real.sqrt ((c1 * r + c2) *
          (c1 * r + c2) - 4 * (c12 * r) * (c0 - A_target))) /
          (2 * (c12 * r)) > EPSILON
      · rw [if_pos hE] at h
        by_cases hF : (-(c1 * r + c2) - Real.sqrt ((c1 * r + c2) *
            (c1 * r + c2) - 4 * (c12 * r) * (c0 - A_target))) /
            (2 * (c12 * r)) > EPSILON
        · rw [if_pos hF] at h
          simp only [Option.some.injEq] at h
          subst h
          split_ifs
          · exact quad_root_plus hane hdn
          · exact quad_root_minus hane hdn
        · rw [if_neg hF] at h
          simp only [Option.some.injEq] at h
          subst h
          exact quad_root_plus hane hdn
      · rw [if_neg hE] at h
        by_cases hF : (-(c1 * r + c2) - Real.sqrt ((c1 * r + c2) *
            (c1 * r + c2) - 4 * (c12 * r) * (c0 - A_target))) /
            (2 * (c12 * r)) > EPSILON
        · rw [if_pos hF] at h
          simp only [Option.some.injEq] at h
          subst h
          exact quad_root_minus hane hdn
        · rw [if_neg hF] at h
          exact Option.noConfusion h

/-- C6 (amended): `redistribute_handles` returns exactly the balanced
handles when (i) an original or balanced handle is zero-length (< 1e-6),
(ii) the original triangle-percentage ratio is within 1e-6 of the balanced
ratio, or (iii) the area-constraint quadratic has no positive root —
provided its leading coefficient `c12 * r_target` is exactly zero or at
least `1e-12` in magnitude.  (When `0 < |c12 * r_target| < 1e-12` the code
solves a linear surrogate instead and can return a modified result even
though the quadratic has no positive root.) -/
theorem redistribution_noop_amended
    (p0x p0y p1ox p1oy p2ox p2oy p1bx p1by p2bx p2by p3x p3y : ℝ)
    (h : (get_distance p0x p0y p1bx p1by < EPSILON ∨
        get_distance p3x p3y p2bx p2by < EPSILON ∨
        get_distance p0x p0y p1ox p1oy < EPSILON ∨
        get_distance p3x p3y p2ox p2oy < EPSILON) ∨
      |redistribute_pct p0x p0y p1ox p1oy p2ox p2oy
          p1bx p1by p2bx p2by p3x p3y - 1| < EPSILON ∨
      ((redistribute_quad_a p0x p0y p1ox p1oy p2ox p2oy
          p1bx p1by p2bx p2by p3x p3y = 0 ∨
        1e-12 ≤ |redistribute_quad_a p0x p0y p1ox p1oy p2ox p2oy
          p1bx p1by p2bx p2by p3x p3y|) ∧
        ∀ h2 : ℝ, 0 < h2 →
          redistribute_quad_a p0x p0y p1ox p1oy p2ox p2oy
              p1bx p1by p2bx p2by p3x p3y * h2 ^ 2 +
            redistribute_quad_b p0x p0y p1ox p1oy p2ox p2oy
              p1bx p1by p2bx p2by p3x p3y * h2 +
            redistribute_quad_c p0x p0y p1ox p1oy p2ox p2oy
              p1bx p1by p2bx p2by p3x p3y ≠ 0)) :
    redistribute_handles p0x p0y p1ox p1oy p2ox p2oy
        p1bx p1by p2bx p2by p3x p3y = (p1bx, p1by, p2bx, p2by) := by
  rcases h with hzero | hpct | ⟨hbr, hnoroot⟩
  · exact redistribute_zero_fallback _ _ _ _ _ _ _ _ _ _ _ _ hzero
  · unfold redistribute_handles
    dsimp only
    unfold redistribute_pct at hpct
    dsimp only at hpct
    split_ifs with g1 g2
    · rfl
    · rfl
    · rfl
  · unfold redistribute_handles
    dsimp only
    split_ifs with g1 g2 g3
    · rfl
    · rfl
    · rfl
    · split
      · rfl
      · rename_i h2n hsv
        exfalso
        have hpos : EPSILON < h2n := solve_some_pos hsv
        have hroot := solve_some_root hbr hsv
        exact hnoroot h2n (lt_trans EPS_pos hpos) hroot

/-- C1 (amended): for every valid segment (distinct endpoints, non-zero
original and balanced handles) on which `redistribute_handles` returns a
modified result, the new handles lie along the balanced handles'
directions from `P0` and `P3`; and provided the leading coefficient
`c12 * r_target` of the area-constraint quadratic is exactly zero or at
least `1e-12` in magnitude, the signed area of the returned cubic exactly
equals the signed area of the balanced cubic (in real arithmetic).  In the
regime `0 < |c12 * r_target| < 1e-12` the code solves a linear surrogate
and the returned curve's area can differ from the balanced area. -/
theorem area_preservation_amended
    (p0x p0y p1ox p1oy p2ox p2oy p1bx p1by p2bx p2by p3x p3y : ℝ)
    (hends : (p0x, p0y) ≠ (p3x, p3y))
    (ho1 : (p1ox, p1oy) ≠ (p0x, p0y)) (ho2 : (p2ox, p2oy) ≠ (p3x, p3y))
    (hb1 : (p1bx, p1by) ≠ (p0x, p0y)) (hb2 : (p2bx, p2by) ≠ (p3x, p3y))
    (hmod : redistribute_handles p0x p0y p1ox p1oy p2ox p2oy
      p1bx p1by p2bx p2by p3x p3y ≠ (p1bx, p1by, p2bx, p2by))
    (r1x r1y r2x r2y : ℝ)
    (hres : redistribute_handles p0x p0y p1ox p1oy p2ox p2oy
      p1bx p1by p2bx p2by p3x p3y = (r1x, r1y, r2x, r2y)) :
    (∃ t1 : ℝ, 0 < t1 ∧ r1x - p0x = t1 * (p1bx - p0x) ∧
      r1y - p0y = t1 * (p1by - p0y)) ∧
    (∃ t2 : ℝ, 0 < t2 ∧ r2x - p3x = t2 * (p2bx - p3x) ∧
      r2y - p3y = t2 * (p2by - p3y)) ∧
    ((redistribute_quad_a p0x p0y p1ox p1oy p2ox p2oy
          p1bx p1by p2bx p2by p3x p3y = 0 ∨
        1e-12 ≤ |redistribute_quad_a p0x p0y p1ox p1oy p2ox p2oy
          p1bx p1by p2bx p2by p3x p3y|) →
      bezier_area p0x p0y r1x r1y r2x r2y p3x p3y =
        bezier_area p0x p0y p1bx p1by p2bx p2by p3x p3y) := by
  unfold redistribute_handles at hmod hres
  dsimp only at hmod hres
  split_ifs at hmod hres with g1 g2 g3
  · exact absurd rfl hmod
  · exact absurd rfl hmod
  · exact absurd rfl hmod
  · push_neg at g1 g2
    obtain ⟨ge1, ge2⟩ := g1
    obtain ⟨ge3, ge4⟩ := g2
    set Hb1 := Real.sqrt ((p1bx - p0x) * (p1bx - p0x) +
      (p1by - p0y) * (p1by - p0y)) with hHb1
    set Hb2 := Real.sqrt ((p2bx - p3x) * (p2bx - p3x) +
      (p2by - p3y) * (p2by - p3y)) with hHb2
    set Ho1 := Real.sqrt ((p1ox - p0x) * (p1ox - p0x) +
      (p1oy - p0y) * (p1oy - p0y)) with hHo1
    set Ho2 := Real.sqrt ((p2ox - p3x) * (p2ox - p3x) +
      (p2oy - p3y) * (p2oy - p3y)) with hHo2
    have hb1p : 0 < Hb1 := lt_of_lt_of_le EPS_pos ge1
    have hb2p : 0 < Hb2 := lt_of_lt_of_le EPS_pos ge2
    have ho1p : 0 < Ho1 := lt_of_lt_of_le EPS_pos ge3
    have ho2p : 0 < Ho2 := lt_of_lt_of_le EPS_pos ge4
    split at hres
    · rename_i hsv
      rw [hsv] at hmod
      exact absurd rfl hmod
    · rename_i h2n hsv
      have h2np : 0 < h2n := lt_trans EPS_pos (solve_some_pos hsv)
      rw [Prod.mk.injEq, Prod.mk.injEq, Prod.mk.injEq] at hres
      obtain ⟨e1, e2, e3, e4⟩ := hres
      subst e1; subst e2; subst e3; subst e4
      have hRt : 0 < Ho1 / Ho2 / (Hb1 / Hb2) * (Hb1 / Hb2) :=
        mul_pos (div_pos (div_pos ho1p ho2p) (div_pos hb1p hb2p))
          (div_pos hb1p hb2p)
      refine ⟨?_, ?_, ?_⟩
      · exact ⟨Ho1 / Ho2 / (Hb1 / Hb2) * (Hb1 / Hb2) * h2n / Hb1,
          div_pos (mul_pos hRt h2np) hb1p,
          by field_simp; ring, by field_simp; ring⟩
      · exact ⟨h2n / Hb2, div_pos h2np hb2p,
          by field_simp; ring, by field_simp; ring⟩
      · -- area preservation, under the leading-coefficient proviso
        intro hbr
        have hroot := solve_some_root hbr hsv
        rw [area_bilinear]
        have hrhs : bezier_area p0x p0y p1bx p1by p2bx p2by p3x p3y =
            (area_coefficients p0x p0y p3x p3y ((p1bx - p0x) / Hb1)
              ((p1by - p0y) / Hb1) ((p2bx - p3x) / Hb2)
              ((p2by - p3y) / Hb2)).1 +
            (area_coefficients p0x p0y p3x p3y ((p1bx - p0x) / Hb1)
              ((p1by - p0y) / Hb1) ((p2bx - p3x) / Hb2)
              ((p2by - p3y) / Hb2)).2.1 * Hb1 +
            (area_coefficients p0x p0y p3x p3y ((p1bx - p0x) / Hb1)
              ((p1by - p0y) / Hb1) ((p2bx - p3x) / Hb2)
              ((p2by - p3y) / Hb2)).2.2.1 * Hb2 +
            (area_coefficients p0x p0y p3x p3y ((p1bx - p0x) / Hb1)
              ((p1by - p0y) / Hb1) ((p2bx - p3x) / Hb2)
              ((p2by - p3y) / Hb2)).2.2.2 * Hb1 * Hb2 := by
          have hb := area_bilinear p0x p0y p3x p3y ((p1bx - p0x) / Hb1)
            ((p1by - p0y) / Hb1) ((p2bx - p3x) / Hb2) ((p2by - p3y) / Hb2)
            Hb1 Hb2
          rw [show p0x + (p1bx - p0x) / Hb1 * Hb1 = p1bx from by
              field_simp,
            show p0y + (p1by - p0y) / Hb1 * Hb1 = p1by from by field_simp,
            show p3x + (p2bx - p3x) / Hb2 * Hb2 = p2bx from by field_simp,
            show p3y + (p2by - p3y) / Hb2 * Hb2 = p2by from by field_simp]
            at hb
          exact hb
        rw [hrhs]
        simp only [area_coefficients] at hroot ⊢
        linear_combination hroot

/-! ### C1 / C6: concrete evaluations of the redistribution corner case

The input below has a tiny (but nonzero) quadratic leading coefficient
`a = c12 * r_target = 9e-16`, so the code takes the linear-surrogate
branch even though the true quadratic has a negative discriminant (no real
root at all): the returned handles are modified and the enclosed area is
not preserved. -/

lemma sqrt_25e28 : Real.sqrt 250000000000000000000000000000 =
    500000000000000 :=
  sqrt_eval (by norm_num) (by norm_num)

lemma sqrt_1e28 : Real.sqrt 10000000000000000000000000000 =
    100000000000000 :=
  sqrt_eval (by norm_num) (by norm_num)

lemma redistribute_eval_ce :
    redistribute_handles 0 0 1 0 (1 + 1e14) 0 0 1 (1 - 3e14) (4e14) 1 0 =
      (0, 250000000000001 / 80000000000001,
       -4999999999999993333333333333 / 26666666666667,
       20000000000000080000000000000 / 80000000000001) := by
  unfold redistribute_handles solve_h2_for_r area_coefficients EPSILON
  norm_num [sqrt_25e28, sqrt_1e28]
  rw [abs_of_nonneg (by norm_num : (0:ℝ) ≤ 9 / 10000000000000000),
    abs_of_nonneg (by norm_num :
      (0:ℝ) ≤ 240000000000003 / 1000000000000000)]
  norm_num

lemma quad_a_eval_ce :
    redistribute_quad_a 0 0 1 0 (1 + 1e14) 0 0 1 (1 - 3e14) (4e14) 1 0 =
      9 / 10000000000000000 := by
  unfold redistribute_quad_a area_coefficients
  norm_num [sqrt_25e28, sqrt_1e28]

lemma quad_b_eval_ce :
    redistribute_quad_b 0 0 1 0 (1 + 1e14) 0 0 1 (1 - 3e14) (4e14) 1 0 =
      -(240000000000003 / 1000000000000000) := by
  unfold redistribute_quad_b area_coefficients
  norm_num [sqrt_25e28, sqrt_1e28]

lemma quad_c_eval_ce :
    redistribute_quad_c 0 0 1 0 (1 + 1e14) 0 0 1 (1 - 3e14) (4e14) 1 0 =
      750000000000003 / 10 := by
  unfold redistribute_quad_c area_coefficients
  norm_num [sqrt_25e28, sqrt_1e28]

lemma ce_no_positive_root : ∀ h2 : ℝ, 0 < h2 →
    (9 / 10000000000000000 : ℝ) * h2 ^ 2 +
      -(240000000000003 / 1000000000000000) * h2 +
      750000000000003 / 10 ≠ 0 := by
  intro h2 _ heq
  nlinarith [sq_nonneg (2 * (9 / 10000000000000000 : ℝ) * h2 +
    -(240000000000003 / 1000000000000000)), heq]

/-- Counterexample to C6 as stated: at a concrete input whose
area-constraint quadratic has a negative discriminant — hence no positive
root — `redistribute_handles` nevertheless returns a result different from
the balanced handles, because the leading coefficient `9e-16` falls below
the `1e-12` cutoff and a linear surrogate is solved instead. -/
theorem redistribution_noop_counterexample :
    redistribute_quad_b 0 0 1 0 (1 + 1e14) 0 0 1 (1 - 3e14) (4e14) 1 0 ^ 2 -
        4 * redistribute_quad_a 0 0 1 0 (1 + 1e14) 0 0 1 (1 - 3e14) (4e14) 1 0
          * redistribute_quad_c 0 0 1 0 (1 + 1e14) 0 0 1 (1 - 3e14)
            (4e14) 1 0 < 0 ∧
    (∀ h2 : ℝ, 0 < h2 →
      redistribute_quad_a 0 0 1 0 (1 + 1e14) 0 0 1 (1 - 3e14) (4e14) 1 0 *
          h2 ^ 2 +
        redistribute_quad_b 0 0 1 0 (1 + 1e14) 0 0 1 (1 - 3e14) (4e14) 1 0 *
          h2 +
        redistribute_quad_c 0 0 1 0 (1 + 1e14) 0 0 1 (1 - 3e14) (4e14) 1 0
        ≠ 0) ∧
    redistribute_handles 0 0 1 0 (1 + 1e14) 0 0 1 (1 - 3e14) (4e14) 1 0 ≠
      (0, 1, 1 - 3e14, 4e14) := by
  refine ⟨?_, ?_, ?_⟩
  · simp only [quad_a_eval_ce, quad_b_eval_ce, quad_c_eval_ce]
    norm_num
  · simp only [quad_a_eval_ce, quad_b_eval_ce, quad_c_eval_ce]
    exact ce_no_positive_root
  · rw [redistribute_eval_ce]
    simp only [ne_eq, Prod.mk.injEq]
    norm_num

/-- Counterexample to C1 as stated: a valid segment (distinct endpoints,
non-zero original and balanced handles) on which `redistribute_handles`
returns a modified result whose enclosed signed area differs from the
balanced curve's area (the linear-surrogate branch is taken because the
quadratic's leading coefficient is below 1e-12). -/
theorem area_preservation_counterexample :
    ((0:ℝ), (0:ℝ)) ≠ ((1:ℝ), (0:ℝ)) ∧
    ((1:ℝ), (0:ℝ)) ≠ ((0:ℝ), (0:ℝ)) ∧
    ((1 + 1e14 : ℝ), (0:ℝ)) ≠ ((1:ℝ), (0:ℝ)) ∧
    ((0:ℝ), (1:ℝ)) ≠ ((0:ℝ), (0:ℝ)) ∧
    ((1 - 3e14 : ℝ), (4e14 : ℝ)) ≠ ((1:ℝ), (0:ℝ)) ∧
    redistribute_handles 0 0 1 0 (1 + 1e14) 0 0 1 (1 - 3e14) (4e14) 1 0 =
      (0, 250000000000001 / 80000000000001,
       -4999999999999993333333333333 / 26666666666667,
       20000000000000080000000000000 / 80000000000001) ∧
    redistribute_handles 0 0 1 0 (1 + 1e14) 0 0 1 (1 - 3e14) (4e14) 1 0 ≠
      (0, 1, 1 - 3e14, 4e14) ∧
    bezier_area 0 0 0 (250000000000001 / 80000000000001)
        (-4999999999999993333333333333 / 26666666666667)
        (20000000000000080000000000000 / 80000000000001) 1 0 ≠
      bezier_area 0 0 0 1 (1 - 3e14) (4e14) 1 0 := by
  refine ⟨by norm_num [Prod.ext_iff], by norm_num [Prod.ext_iff],
    by norm_num [Prod.ext_iff], by norm_num [Prod.ext_iff],
    by norm_num [Prod.ext_iff], redistribute_eval_ce, ?_, ?_⟩
  · rw [redistribute_eval_ce]
    simp only [ne_eq, Prod.mk.injEq]
    norm_num
  · unfold bezier_area
    norm_num

lemma sqrt_four : Real.sqrt 4 = 2 := sqrt_eval (by norm_num) (by norm_num)

lemma sqrt_nine : Real.sqrt 9 = 3 := sqrt_eval (by norm_num) (by norm_num)

lemma redistribute_eval_w1 :
    redistribute_handles 0 0 0 2 1 1 0 1 1 1 1 0 =
      ((0:ℝ), (4/3:ℝ), (1:ℝ), (2/3:ℝ)) := by
  unfold redistribute_handles solve_h2_for_r area_coefficients EPSILON
  norm_num [sqrt_four]
  rw [abs_of_nonneg (by norm_num : (0:ℝ) ≤ 9 / 10)]
  norm_num

lemma quad_a_eval_w1 : redistribute_quad_a 0 0 0 2 1 1 0 1 1 1 1 0 = 0 := by
  unfold redistribute_quad_a area_coefficients
  norm_num [sqrt_four]

/-- Witness for the amended C1: a concrete valid segment on which
redistribution modifies the handles through the exact linear branch
(`c12 * r_target = 0`), preserving the area exactly. -/
theorem area_preservation_amended_witness :
    ((0:ℝ), (0:ℝ)) ≠ ((1:ℝ), (0:ℝ)) ∧
    ((0:ℝ), (2:ℝ)) ≠ ((0:ℝ), (0:ℝ)) ∧
    ((1:ℝ), (1:ℝ)) ≠ ((1:ℝ), (0:ℝ)) ∧
    ((0:ℝ), (1:ℝ)) ≠ ((0:ℝ), (0:ℝ)) ∧
    redistribute_quad_a 0 0 0 2 1 1 0 1 1 1 1 0 = 0 ∧
    redistribute_handles 0 0 0 2 1 1 0 1 1 1 1 0 ≠
      ((0:ℝ), (1:ℝ), (1:ℝ), (1:ℝ)) ∧
    redistribute_handles 0 0 0 2 1 1 0 1 1 1 1 0 =
      ((0:ℝ), (4/3:ℝ), (1:ℝ), (2/3:ℝ)) ∧
    ((∃ t1 : ℝ, 0 < t1 ∧ (0:ℝ) - 0 = t1 * (0 - 0) ∧
        (4/3:ℝ) - 0 = t1 * (1 - 0)) ∧
      (∃ t2 : ℝ, 0 < t2 ∧ (1:ℝ) - 1 = t2 * (1 - 1) ∧
        (2/3:ℝ) - 0 = t2 * (1 - 0)) ∧
      ((redistribute_quad_a 0 0 0 2 1 1 0 1 1 1 1 0 = 0 ∨
          1e-12 ≤ |redistribute_quad_a 0 0 0 2 1 1 0 1 1 1 1 0|) →
        bezier_area 0 0 0 (4/3) 1 (2/3) 1 0 =
          bezier_area 0 0 0 1 1 1 1 0)) ∧
    bezier_area 0 0 0 (4/3) 1 (2/3) 1 0 = bezier_area 0 0 0 1 1 1 1 0 := by
  have hmod : redistribute_handles 0 0 0 2 1 1 0 1 1 1 1 0 ≠
      ((0:ℝ), (1:ℝ), (1:ℝ), (1:ℝ)) := by
    rw [redistribute_eval_w1]
    simp only [ne_eq, Prod.mk.injEq]
    norm_num
  have hconc := area_preservation_amended 0 0 0 2 1 1 0 1 1 1 1 0
    (by norm_num [Prod.ext_iff]) (by norm_num [Prod.ext_iff])
    (by norm_num [Prod.ext_iff]) (by norm_num [Prod.ext_iff])
    (by norm_num [Prod.ext_iff]) hmod
    0 (4/3) 1 (2/3) redistribute_eval_w1
  exact ⟨by norm_num [Prod.ext_iff], by norm_num [Prod.ext_iff],
    by norm_num [Prod.ext_iff], by norm_num [Prod.ext_iff],
    quad_a_eval_w1, hmod, redistribute_eval_w1, hconc,
    hconc.2.2 (Or.inl quad_a_eval_w1)⟩

/-- Witness for the amended C6: an input whose original triangle-percentage
ratio equals the balanced ratio exactly, so redistribution is a no-op. -/
theorem redistribution_noop_amended_witness :
    |redistribute_pct 0 0 0 3 1 3 0 1 1 1 1 0 - 1| < EPSILON ∧
      redistribute_handles 0 0 0 3 1 3 0 1 1 1 1 0 = (0, 1, 1, 1) := by
  have hpct : |redistribute_pct 0 0 0 3 1 3 0 1 1 1 1 0 - 1| < EPSILON := by
    unfold redistribute_pct EPSILON
    norm_num [sqrt_nine]
  exact ⟨hpct, redistribution_noop_amended 0 0 0 3 1 3 0 1 1 1 1 0
    (Or.inr (Or.inl hpct))⟩

/-! ### C7: the Lb_max clamp is skipped when rho ≤ EPSILON -/

lemma segA_eval_bug :
    segment_intersection (-2) 4e12 (-1) 4e12 (-1) 0 0 0 = none := by
  unfold segment_intersection EPSILON
  norm_num

lemma segB_eval_bug :
    segment_intersection 0 0 1 0 2 (2 - 1e-7) 1 (1 - 1e-7) =
      some (1e-7, 0) := by
  unfold segment_intersection sided_intersection tri_area EPSILON
  norm_num

lemma smooth_eval_bug :
    smooth_handles_at_node (-2) 4e12 (-1) 4e12 (-1) 0 0 0 1 0 2 (2 - 1e-7)
        1 (1 - 1e-7) =
      (-((1 + Real.sqrt (19999999 / 10000000) / Real.sqrt 4000000000000) /
          (1 + Real.sqrt (19999999 / 10000000) / Real.sqrt 4000000000000 *
            (Real.sqrt (19999999 / 10000000) / Real.sqrt 4000000000000))),
       0,
       Real.sqrt (19999999 / 10000000) / Real.sqrt 4000000000000 *
         ((1 + Real.sqrt (19999999 / 10000000) / Real.sqrt 4000000000000) /
          (1 + Real.sqrt (19999999 / 10000000) / Real.sqrt 4000000000000 *
            (Real.sqrt (19999999 / 10000000) / Real.sqrt 4000000000000))),
       0) := by
  unfold smooth_handles_at_node EPSILON
  dsimp only
  rw [segA_eval_bug, segB_eval_bug]
  norm_num [get_distance]
  rw [abs_of_nonneg (show (0:ℝ) ≤ 19999999 / 10000000 from by norm_num)]
  set R := Real.sqrt (19999999 / 10000000) / Real.sqrt 4000000000000
    with hRdef
  have ha : Real.sqrt (19999999 / 10000000) *
      Real.sqrt (19999999 / 10000000) = 19999999 / 10000000 :=
    Real.mul_self_sqrt (by norm_num)
  have hb : Real.sqrt 4000000000000 * Real.sqrt 4000000000000 =
      4000000000000 := Real.mul_self_sqrt (by norm_num)
  have hRR : R * R = 19999999 / 40000000000000000000 := by
    rw [hRdef, div_mul_div_comm, ha, hb]
    norm_num
  have hR0 : 0 ≤ R :=
    div_nonneg (Real.sqrt_nonneg _) (Real.sqrt_nonneg _)
  have hRsmall : R < 1 / 1000000 := by nlinarith
  have hs14 : Real.sqrt 100000000000000 = 10000000 :=
    sqrt_eval (by norm_num) (by norm_num)
  rw [hs14]
  rw [abs_of_nonneg (show (0:ℝ) ≤ 1 + R * R from by nlinarith)]
  rw [if_neg (show ¬(19999999 / 10000000 : ℝ) < 1 / 1000000 from
    by norm_num)]
  rw [if_neg (show ¬(1 + R * R : ℝ) < 1 / 1000000 from by nlinarith)]
  have hcond : ¬((1:ℝ) / 1000000 < R ∧
      ((10000000:ℝ))⁻¹ / R < (1 + R) / (1 + R * R)) := by
    intro hcontra
    exact absurd hcontra.1 (not_lt.mpr hRsmall.le)
  rw [if_neg hcond, if_neg hcond, if_neg hcond]
  rw [if_neg (show ¬((1 + R) / (1 + R * R) : ℝ) < 1 / 1000000 from by
    rw [not_lt, le_div_iff (by nlinarith : (0:ℝ) < 1 + R * R)]
    nlinarith)]
  rw [hRdef, Real.sqrt_div (by norm_num : (0:ℝ) ≤ 19999999)]

lemma lbmax_eval_bug :
    (segment_intersection 0 0 1 0 2 (2 - 1e-7) 1 (1 - 1e-7)).map
      (fun q => get_distance 0 0 q.1 q.2) = some (1e-7) := by
  have hs : Real.sqrt (1 / 100000000000000) = 1 / 10000000 :=
    sqrt_eval (by norm_num) (by norm_num)
  rw [segB_eval_bug]
  unfold get_distance
  norm_num [hs]

/-- C7 as evaluated on the failing input: for the smooth-node window
P0a = (-2, 4e12), A1 = (-1, 4e12), A2 = (-1, 0), N = (0, 0), B1 = (1, 0),
B2 = (2, 2 - 1e-7), P3b = (1, 1 - 1e-7), the segment-B intersection limit
Lb_max is defined and equals 1e-7, yet the returned near-handle B1 ends up
farther than Lb_max from the node: the G2 ratio rho ≈ 7.07e-7 falls below
the `rho > EPSILON` guard, so the code skips the `rho·La ≤ Lb_max` clamp
that its own comment promises. -/
theorem smooth_clamp_exceeds_limit :
    (segment_intersection 0 0 1 0 2 (2 - 1e-7) 1 (1 - 1e-7)).map
        (fun q => get_distance 0 0 q.1 q.2) = some (1e-7) ∧
    1e-7 < get_distance 0 0
        (smooth_handles_at_node (-2) 4e12 (-1) 4e12 (-1) 0 0 0 1 0 2
          (2 - 1e-7) 1 (1 - 1e-7)).2.2.1
        (smooth_handles_at_node (-2) 4e12 (-1) 4e12 (-1) 0 0 0 1 0 2
          (2 - 1e-7) 1 (1 - 1e-7)).2.2.2 := by
  refine ⟨lbmax_eval_bug, ?_⟩
  rw [smooth_eval_bug]
  dsimp only
  unfold get_distance
  set R := Real.sqrt (19999999 / 10000000) / Real.sqrt 4000000000000
    with hRdef
  set Y := (1 + R) / (1 + R * R) with hYdef
  have ha : Real.sqrt (19999999 / 10000000) *
      Real.sqrt (19999999 / 10000000) = 19999999 / 10000000 :=
    Real.mul_self_sqrt (by norm_num)
  have hb : Real.sqrt 4000000000000 * Real.sqrt 4000000000000 =
      4000000000000 := Real.mul_self_sqrt (by norm_num)
  have hRR : R * R = 19999999 / 40000000000000000000 := by
    rw [hRdef, div_mul_div_comm, ha, hb]
    norm_num
  have hR0 : 0 ≤ R :=
    div_nonneg (Real.sqrt_nonneg _) (Real.sqrt_nonneg _)
  have hR7 : 1 / 10000000 < R := by nlinarith
  have hYge : 1 ≤ Y := by
    rw [hYdef, le_div_iff (by nlinarith : (0:ℝ) < 1 + R * R)]
    nlinarith
  have hRY : R ≤ R * Y := by nlinarith
  have hRY0 : 0 ≤ R * Y := by nlinarith
  rw [show ((0:ℝ) - R * Y) ^ 2 + ((0:ℝ) - 0) ^ 2 = (R * Y) ^ 2 from by
    ring, Real.sqrt_sq hRY0]
  calc (1e-7 : ℝ) < R := by norm_num [hR7]
    _ ≤ R * Y := hRY

end

end Superelliptify
